import Mathlib

/-!
Verification development for the VoiceBill voice-transcript parsing core.

This file gives a shallow embedding, over `List Char`, of the repository's
text-processing core:

* `services/voiceParser.ts` — `normalizeNumbers`, `preprocessTranscript`,
  `parseSegment`, `parseContinuousInput`, the semantic-similarity engine, and
  the module-level lexicon tables;
* the Tamil linguistic engine (`tamilLinguisticEngine.ts`) —
  `levenshteinDistance`, `calculateSimilarity`, `findClosestLexiconMatch`,
  `processTamilText`, `formalizeTamilForPDF` and their tables;
* the `RATE_KEYWORDS` / `QUANTITY_KEYWORDS` constants (quoted verbatim in the
  repository's implementation summary).

Modelling conventions:

* JavaScript strings are `List Char` (all characters used by the program are
  in the BMP, so JS UTF-16 `length` coincides with the character count).
* JavaScript numbers are `ℚ`.  Every number the parser manipulates is parsed
  from a decimal-digit string, and the arithmetic performed on them
  (one division) is exact at the scales exercised here, so `ℚ` is the
  standard abstraction of the float arithmetic.
* Each regular expression used by the source is compiled by hand into a
  scanner that implements the exact ECMAScript semantics of that pattern
  (leftmost match, alternation order, greediness, word boundaries `\b`,
  `lastIndex`-based global scanning).  Scanners that advance through the
  string use an explicit fuel argument (`length + 1` suffices, every step
  consumes at least one character); fuel keeps every definition structurally
  recursive and hence computable by the kernel.
* `String.prototype.toLowerCase`/`toUpperCase` are modelled on the ASCII
  range (the only range on which the program relies on case; Tamil has no
  case).
* `Array.prototype.sort` is in-place in JavaScript and is applied by
  `parseContinuousInput` to the module-level `RATE_KEYWORDS` and
  `TAMIL_ITEM_NAMES` arrays.  The module state is therefore made explicit:
  `parseContinuousInputSt` threads a `ParserTables` record and returns the
  updated record next to its result list.  Modern JS engines' sort is
  stable, and a stable sort under a fixed comparator is unique, so the
  insertion sort used here computes exactly the engine's result.
-/

set_option maxRecDepth 10000

/-! ## Character classes (ECMAScript semantics) -/

/-- Decimal digit, JS regex `\d`. -/
def isDigitChar (c : Char) : Bool :=
  (48 ≤ c.toNat) && (c.toNat ≤ 57)

/-- ASCII letter. -/
def isAsciiAlpha (c : Char) : Bool :=
  ((97 ≤ c.toNat) && (c.toNat ≤ 122)) || ((65 ≤ c.toNat) && (c.toNat ≤ 90))

/-- JS regex `\w` : ASCII letter, digit, or underscore (code point 95). -/
def isWordChar (c : Char) : Bool :=
  isAsciiAlpha c || isDigitChar c || (c.toNat == 95)

/-- Tamil Unicode block U+0B80 – U+0BFF (`isTamilChar` in the source). -/
def isTamilChar (c : Char) : Bool :=
  (0x0B80 ≤ c.toNat) && (c.toNat ≤ 0x0BFF)

/-- JS regex `\s` (WhiteSpace ∪ LineTerminator of ECMAScript). -/
def jsIsSpace (c : Char) : Bool :=
  (9 ≤ c.toNat && c.toNat ≤ 13) || c.toNat == 32 || c.toNat == 0xA0 ||
  c.toNat == 0x1680 || (0x2000 ≤ c.toNat && c.toNat ≤ 0x200A) ||
  c.toNat == 0x2028 || c.toNat == 0x2029 || c.toNat == 0x202F ||
  c.toNat == 0x205F || c.toNat == 0x3000 || c.toNat == 0xFEFF

/-- JS `toLowerCase`, restricted to the ASCII range (sufficient here). -/
def toLowerChar (c : Char) : Char :=
  if (65 ≤ c.toNat) && (c.toNat ≤ 90) then Char.ofNat (c.toNat + 32) else c

/-- JS `toUpperCase`, restricted to the ASCII range (sufficient here). -/
def toUpperChar (c : Char) : Char :=
  if (97 ≤ c.toNat) && (c.toNat ≤ 122) then Char.ofNat (c.toNat - 32) else c

/-- Case-insensitive character comparison (the `i` regex flag). -/
def ciEq (textC keyC : Char) : Bool :=
  toLowerChar textC == toLowerChar keyC

/-- Case-insensitive "`key` is a prefix of `l`" (alternation branches of the
`i`-flagged regexes match their keyword literally up to case). -/
def ciBegins : List Char → List Char → Bool
  | [], _ => true
  | _ :: _, [] => false
  | k :: ks, c :: cs => ciEq c k && ciBegins ks cs

/-- Lowercase a whole string (JS `toLowerCase`). -/
def lowerStr (l : List Char) : List Char :=
  l.map toLowerChar

/-! ## Basic string operations (ECMAScript semantics) -/

/-- JS `String.prototype.trim` - strip `\s` characters from both ends. -/
def jsTrim (l : List Char) : List Char :=
  ((l.dropWhile jsIsSpace).reverse.dropWhile jsIsSpace).reverse

/-- JS `replace(/\s+/g, ' ')` - collapse every maximal whitespace run to a
single space.  The boolean tracks whether we are inside a run. -/
def collapseWsGo : Bool → List Char → List Char
  | _, [] => []
  | inRun, c :: r =>
    if jsIsSpace c then
      (if inRun then [] else [' ']) ++ collapseWsGo true r
    else
      c :: collapseWsGo false r

def collapseWs (l : List Char) : List Char :=
  collapseWsGo false l

/-- JS `split(/\s+/)` : pieces between maximal whitespace runs, keeping the
empty leading/trailing pieces exactly as `String.prototype.split` does. -/
def splitWsPlainGo : Bool → List Char → List Char → List (List Char)
  | _, cur, [] => [cur.reverse]
  | inSep, cur, c :: r =>
    if jsIsSpace c then
      if inSep then splitWsPlainGo true cur r
      else cur.reverse :: splitWsPlainGo true [] r
    else
      splitWsPlainGo false (c :: cur) r

def splitWsPlain (l : List Char) : List (List Char) :=
  splitWsPlainGo false [] l

/-- JS `split(/(\s+)/)` : like `splitWsPlain` but the captured separator runs
are spliced into the result (ECMAScript splicing of capture groups). -/
def splitWsKeepGo : Bool → List Char → List Char → List (List Char)
  | false, cur, [] => [cur.reverse]
  | false, cur, c :: r =>
    if jsIsSpace c then cur.reverse :: splitWsKeepGo true [c] r
    else splitWsKeepGo false (c :: cur) r
  | true, sep, [] => [sep.reverse, []]
  | true, sep, c :: r =>
    if jsIsSpace c then splitWsKeepGo true (c :: sep) r
    else sep.reverse :: splitWsKeepGo false [c] r

def splitWsKeep (l : List Char) : List (List Char) :=
  splitWsKeepGo false [] l

/-- JS `String.prototype.replace` with a plain-string pattern: replace the
first occurrence of `pat` (exact match) by `rep`. -/
def replaceFirstGo (pat rep : List Char) : List Char → List Char
  | [] => []
  | c :: r =>
    if pat.isPrefixOf (c :: r) then rep ++ (c :: r).drop pat.length
    else c :: replaceFirstGo pat rep r

def replaceFirstStr (pat rep l : List Char) : List Char :=
  if pat = [] then rep ++ l else replaceFirstGo pat rep l

/-- Concatenation of a list of strings (used to state split/join facts). -/
def concatAll : List (List Char) → List Char
  | [] => []
  | p :: ps => p ++ concatAll ps

/-- JS `Array.prototype.join(' ')`. -/
def joinSpace : List (List Char) → List Char
  | [] => []
  | [p] => p
  | p :: ps => p ++ ' ' :: joinSpace ps

/-! ## Numbers

Rational arithmetic is routed through `Rat.divInt`, which (unlike `Rat.mul`
or `Rat.inv`) the kernel evaluates on literals; bridge lemmas below identify
these helpers with the field operations of `ℚ`. -/

/-- A natural number as a rational. -/
def qOfNat (n : Nat) : ℚ :=
  Rat.divInt (Int.ofNat n) 1

/-- Exact rational division (`a * b.den` over `a.den * b.num`; equal to
`a / b`, see `qDiv_eq_div`). -/
def qDiv (a b : ℚ) : ℚ :=
  Rat.divInt (a.num * (b.den : Int)) ((a.den : Int) * b.num)

/-- Exact rational subtraction (equal to `a - b`, see `qSub_eq_sub`). -/
def qSub (a b : ℚ) : ℚ :=
  Rat.divInt (a.num * (b.den : Int) - b.num * (a.den : Int))
    ((a.den : Int) * (b.den : Int))

/-- Numeric value of a digit character. -/
def charDigit (c : Char) : Nat :=
  c.toNat - 48

/-- Value of a decimal-digit string. -/
def digitsToNat (l : List Char) : Nat :=
  l.foldl (fun a c => 10 * a + charDigit c) 0

/-- JS `parseFloat` on a string matching `\d+(\.\d+)?` (the only strings the
parser feeds to it): the exact value `intPart.fracPart`. -/
def parseDecimal (l : List Char) : ℚ :=
  let ip := l.takeWhile isDigitChar
  let rest := l.drop ip.length
  match rest with
  | c :: cs =>
    if c == '.' then
      let fs := cs.takeWhile isDigitChar
      Rat.divInt
        (Int.ofNat (digitsToNat ip * 10 ^ fs.length + digitsToNat fs))
        (Int.ofNat (10 ^ fs.length))
    else qOfNat (digitsToNat ip)
  | [] => qOfNat (digitsToNat ip)

/-- Fractional digits of `r / d` by long division (fuel-bounded; the values
rendered by the program all have terminating decimal expansions). -/
def fracDigits : Nat → Nat → Nat → List Char
  | _, _, 0 => []
  | r, d, fuel + 1 =>
    let r10 := r * 10
    let digit := r10 / d
    let r2 := r10 % d
    Char.ofNat (48 + digit) :: (if r2 = 0 then [] else fracDigits r2 d fuel)

/-- JS `Number.prototype.toString` for the nonnegative terminating-decimal
values produced by the parser ("2", "0.5", ...; no trailing zeros). -/
def ratToChars (q : ℚ) : List Char :=
  let n := q.num.toNat
  let d := q.den
  let ip := n / d
  let rem := n % d
  if rem = 0 then Nat.toDigits 10 ip
  else Nat.toDigits 10 ip ++ '.' :: fracDigits rem d 30

/-! ## Regex scanners

Each scanner below implements exactly one regular-expression shape used by
the source, with ECMAScript matching semantics.  All are fueled; callers
supply `length + 1`, which is always sufficient because every match consumes
at least one character. -/

/-- Helper for the trailing `(\s|$)` group of the number-word patterns:
given the suffix after the keyword, return `(capturedGroup, restAfter)` when
the group matches (one whitespace character, or end of input). -/
def tailBoundary : List Char → Option (List Char × List Char)
  | [] => some ([], [])
  | c :: r => if jsIsSpace c then some ([c], r) else none

/-- Match attempt, at one position, for the number-word replacement pattern
of `normalizeNumbers` : `(^|\s)key(\s|$)` with flags `gi` and replacement
template `$1⟨val⟩$2`.  Returns `(emittedText, restAfterMatch)`.  The `^`
alternative of the first group is tried before the `\s` alternative, as the
regex engine does. -/
def wbTry (key val : List Char) (atStart : Bool) (l : List Char) :
    Option (List Char × List Char) :=
  match (if atStart && ciBegins key l then
           match tailBoundary (l.drop key.length) with
           | some (g2, rest) => some (val ++ g2, rest)
           | none => none
         else none) with
  | some res => some res
  | none =>
    match l with
    | c :: r =>
      if jsIsSpace c && ciBegins key r then
        match tailBoundary (r.drop key.length) with
        | some (g2, rest) => some (c :: (val ++ g2), rest)
        | none => none
      else none
    | [] => none

/-- Global scan for `wbTry` (the `g` flag: matching resumes after the end of
each match, on the original text). -/
def wbGo (key val : List Char) : Nat → Bool → List Char → List Char
  | 0, _, l => l
  | _ + 1, _, [] => []
  | fuel + 1, atStart, c :: r =>
    match wbTry key val atStart (c :: r) with
    | some (em, rest) => em ++ wbGo key val fuel false rest
    | none => c :: wbGo key val fuel false r

/-- JS `text.replace(new RegExp('(^|\\s)' + key + '(\\s|$)', 'gi'),
'$1' + val + '$2')`. -/
def wordBoundedReplace (key val text : List Char) : List Char :=
  wbGo key val (text.length + 1) true text

/-- Whether a `\b` word boundary holds between a (present) character and an
optional following character (`none` = end of string). -/
def boundaryAfter (lastC : Char) : List Char → Bool
  | [] => isWordChar lastC
  | c :: _ => isWordChar lastC != isWordChar c

/-- Match attempt for the rate-correction pattern of `normalizeNumbers` :
`(\d+)\s*key\b` with flags `gi`, replacement `$1 ⟨val⟩`. -/
def rcTry (key val : List Char) (l : List Char) : Option (List Char × List Char) :=
  let ds := l.takeWhile isDigitChar
  if ds = [] then none
  else
    let r1 := l.drop ds.length
    let sp := r1.takeWhile jsIsSpace
    let r2 := r1.drop sp.length
    if ciBegins key r2 then
      let after := r2.drop key.length
      if boundaryAfter (key.getLastD ' ') after then
        some (ds ++ ' ' :: val, after)
      else none
    else none

def rcGo (key val : List Char) : Nat → List Char → List Char
  | 0, l => l
  | _ + 1, [] => []
  | fuel + 1, c :: r =>
    match rcTry key val (c :: r) with
    | some (em, rest) => em ++ rcGo key val fuel rest
    | none => c :: rcGo key val fuel r

/-- JS `normalized.replace(new RegExp('(\\d+)\\s*' + key + '\\b', 'gi'),
'$1 ' + val)`. -/
def rateCorrReplace (key val text : List Char) : List Char :=
  rcGo key val (text.length + 1) text

/-- Match attempt for the compound-number merge of `normalizeNumbers` :
`(\d0)\s+(\d)(?!\d)` with replacement `String(parseInt($1) + parseInt($2))`
("twenty five" → "25" after word normalization produced "20 5"). -/
def cmTry (l : List Char) : Option (List Char × List Char) :=
  match l with
  | a :: b :: rest =>
    if isDigitChar a && (b == '0') then
      let sp := rest.takeWhile jsIsSpace
      if sp = [] then none
      else
        match rest.drop sp.length with
        | d :: rest2 =>
          if isDigitChar d &&
             (match rest2 with | [] => true | e :: _ => !(isDigitChar e)) then
            some (Nat.toDigits 10 (charDigit a * 10 + charDigit d), rest2)
          else none
        | [] => none
    else none
  | _ => none

def cmGo : Nat → List Char → List Char
  | 0, l => l
  | _ + 1, [] => []
  | fuel + 1, c :: r =>
    match cmTry (c :: r) with
    | some (em, rest) => em ++ cmGo fuel rest
    | none => c :: cmGo fuel r

/-- JS `normalized.replace(/(\d0)\s+(\d)(?!\d)/g, ...)`. -/
def compoundMerge (text : List Char) : List Char :=
  cmGo (text.length + 1) text

/-- Match attempt for the `\b`-delimited whole-word replacement of
`preprocessTranscript` : `new RegExp('\\b' + key + '\\b', 'gi')`.  `prev` is
the character preceding the current position in the original text. -/
def bwTry (key val : List Char) (prev : Option Char) (l : List Char) :
    Option (List Char × List Char) :=
  if ciBegins key l then
    let kh := key.headD ' '
    let okBefore :=
      match prev with
      | none => isWordChar kh
      | some p => isWordChar p != isWordChar kh
    let after := l.drop key.length
    if okBefore && boundaryAfter (key.getLastD ' ') after then
      some (val, after)
    else none
  else none

def bwGo (key val : List Char) : Nat → Option Char → List Char → List Char
  | 0, _, l => l
  | _ + 1, _, [] => []
  | fuel + 1, prev, c :: r =>
    match bwTry key val prev (c :: r) with
    | some (em, rest) =>
      em ++ bwGo key val fuel (some (((c :: r).take key.length).getLastD c)) rest
    | none => c :: bwGo key val fuel (some c) r

/-- JS `processed.replace(new RegExp('\\b' + key + '\\b', 'gi'), val)`. -/
def bWordReplace (key val text : List Char) : List Char :=
  bwGo key val (text.length + 1) none text

/-- Optional fraction group `(?:\.\d+)?` (greedy): returns the consumed
characters and the remaining suffix. -/
def fracOf : List Char → List Char × List Char
  | [] => ([], [])
  | c :: cs =>
    if c == '.' then
      let fs := cs.takeWhile isDigitChar
      if fs = [] then ([], c :: cs) else (c :: fs, cs.drop fs.length)
    else ([], c :: cs)

/-- Match attempt for `(\d+(?:\.\d+)?)\s*(ALT)` (optionally followed by the
greedy `s?` of the quantity pattern).  `keys` is the alternation, already in
pattern order (longest first, stable).  Returns
`(numberGroup, keywordGroupText, wholeMatchText)`. -/
def numKeyTry (keys : List (List Char)) (allowS : Bool) (l : List Char) :
    Option (List Char × List Char × List Char) :=
  let ds := l.takeWhile isDigitChar
  if ds = [] then none
  else
    let r1 := l.drop ds.length
    let (frac, r2) := fracOf r1
    let numStr := ds ++ frac
    let sp := r2.takeWhile jsIsSpace
    let r3 := r2.drop sp.length
    match keys.find? (fun k => ciBegins k r3) with
    | some k =>
      let keyText := r3.take k.length
      let r4 := r3.drop k.length
      let sChar :=
        if allowS then
          match r4 with
          | c :: _ => if ciEq c 's' then [c] else []
          | [] => []
        else []
      some (numStr, keyText, numStr ++ sp ++ keyText ++ sChar)
    | none => none

def numKeyGo (keys : List (List Char)) (allowS : Bool) :
    Nat → List Char → Option (List Char × List Char × List Char)
  | 0, _ => none
  | _ + 1, [] => none
  | fuel + 1, c :: r =>
    match numKeyTry keys allowS (c :: r) with
    | some m => some m
    | none => numKeyGo keys allowS fuel r

/-- First (leftmost) match of `(\d+(?:\.\d+)?)\s*(ALT)s?` resp. without the
`s?` when `allowS = false`. -/
def findNumKey (keys : List (List Char)) (allowS : Bool) (text : List Char) :
    Option (List Char × List Char × List Char) :=
  numKeyGo keys allowS (text.length + 1) text

/-- Match attempt for `(ALT)\s*(\d+(?:\.\d+)?)` at one position: alternatives
are tried in pattern order, and an alternative whose keyword matches but
whose following digits are missing backtracks to the next alternative,
exactly as the regex engine does.  Returns
`(keywordGroupText, numberGroup, wholeMatchText)`. -/
def keyNumTryKeys : List (List Char) → List Char →
    Option (List Char × List Char × List Char)
  | [], _ => none
  | k :: ks, l =>
    if ciBegins k l then
      let keyText := l.take k.length
      let r1 := l.drop k.length
      let sp := r1.takeWhile jsIsSpace
      let r2 := r1.drop sp.length
      let ds := r2.takeWhile isDigitChar
      if ds = [] then keyNumTryKeys ks l
      else
        let r3 := r2.drop ds.length
        let (frac, _) := fracOf r3
        some (keyText, ds ++ frac, keyText ++ sp ++ ds ++ frac)
    else keyNumTryKeys ks l

def keyNumGo (keys : List (List Char)) :
    Nat → List Char → Option (List Char × List Char × List Char)
  | 0, _ => none
  | _ + 1, [] => none
  | fuel + 1, c :: r =>
    match keyNumTryKeys keys (c :: r) with
    | some m => some m
    | none => keyNumGo keys fuel r

/-- First (leftmost) match of `(ALT)\s*(\d+(?:\.\d+)?)`. -/
def findKeyNum (keys : List (List Char)) (text : List Char) :
    Option (List Char × List Char × List Char) :=
  keyNumGo keys (text.length + 1) text

/-- Match attempt for a Tamil fraction pattern of `parseSegment`, namely
`word\s*(u₁|u₂|…)` with flag `i`, at one position.  Returns the whole match
text. -/
def fractionTry (word : List Char) (units : List (List Char)) (l : List Char) :
    Option (List Char) :=
  if ciBegins word l then
    let r1 := l.drop word.length
    let sp := r1.takeWhile jsIsSpace
    let r2 := r1.drop sp.length
    match units.find? (fun u => ciBegins u r2) with
    | some u => some (l.take word.length ++ sp ++ r2.take u.length)
    | none => none
  else none

def fractionGo (word : List Char) (units : List (List Char)) :
    Nat → List Char → Option (List Char)
  | 0, _ => none
  | _ + 1, [] => none
  | fuel + 1, c :: r =>
    match fractionTry word units (c :: r) with
    | some m => some m
    | none => fractionGo word units fuel r

/-- First match of a Tamil fraction pattern. -/
def findFraction (word : List Char) (units : List (List Char)) (text : List Char) :
    Option (List Char) :=
  fractionGo word units (text.length + 1) text

/-- Match attempt for the standalone-number fallback of `parseSegment` :
`\b(\d+(?:\.\d+)?)\b`.  When the boundary after a matched fraction fails,
the optional group backtracks and the integer part alone is the match (its
following character is then `'.'`, a non-word character, so the trailing
`\b` holds). -/
def snTry (prev : Option Char) (l : List Char) : Option (List Char) :=
  match l with
  | c :: _ =>
    if isDigitChar c &&
       (match prev with | none => true | some p => !(isWordChar p)) then
      let ds := l.takeWhile isDigitChar
      let r1 := l.drop ds.length
      match r1 with
      | [] => some ds
      | d :: cs =>
        if d == '.' then
          let fs := cs.takeWhile isDigitChar
          if fs = [] then some ds
          else
            match cs.drop fs.length with
            | [] => some (ds ++ d :: fs)
            | e :: _ => if isWordChar e then some ds else some (ds ++ d :: fs)
        else if isWordChar d then none
        else some ds
    else none
  | [] => none

def snGo : Nat → Option Char → List Char → Option (List Char)
  | 0, _, _ => none
  | _ + 1, _, [] => none
  | fuel + 1, prev, c :: r =>
    match snTry prev (c :: r) with
    | some m => some m
    | none => snGo fuel (some c) r

/-- First match of `\b(\d+(?:\.\d+)?)\b`. -/
def findStandaloneNumber (text : List Char) : Option (List Char) :=
  snGo (text.length + 1) none text

/-- Match attempt (returning the match length) for the boundary-splitting
regex of `parseContinuousInput` :
`(\d+(?:\.\d+)?\s*(?:ALT)|(?:ALT)\s*\d+(?:\.\d+)?)` with flags `gi`.
The first alternative is tried first; within the second, keyword
alternatives whose digits are missing backtrack to the next keyword. -/
def splitTryAlt2 : List (List Char) → List Char → Option Nat
  | [], _ => none
  | k :: ks, l =>
    if ciBegins k l then
      let r1 := l.drop k.length
      let sp := r1.takeWhile jsIsSpace
      let r2 := r1.drop sp.length
      let ds := r2.takeWhile isDigitChar
      if ds = [] then splitTryAlt2 ks l
      else
        let r3 := r2.drop ds.length
        let (frac, _) := fracOf r3
        some (k.length + sp.length + ds.length + frac.length)
    else splitTryAlt2 ks l

def splitTry (keys : List (List Char)) (l : List Char) : Option Nat :=
  let ds := l.takeWhile isDigitChar
  match (if ds = [] then none
         else
           let r1 := l.drop ds.length
           let (frac, r2) := fracOf r1
           let sp := r2.takeWhile jsIsSpace
           let r3 := r2.drop sp.length
           match keys.find? (fun k => ciBegins k r3) with
           | some k => some (ds.length + frac.length + sp.length + k.length)
           | none => none) with
  | some n => some n
  | none => splitTryAlt2 keys l

/-- The `while ((match = splitRegex.exec(...)) !== null)` loop: closed
segments run from the previous `lastIndex` to the end of each match; the
final component is the text after the last match (the whole text when there
is no match). -/
def rateScanGo (keys : List (List Char)) :
    Nat → List Char → List Char → List (List Char) × List Char
  | 0, acc, l => ([], acc ++ l)
  | _ + 1, acc, [] => ([], acc)
  | fuel + 1, acc, c :: r =>
    match splitTry keys (c :: r) with
    | some len =>
      let seg := acc ++ (c :: r).take len
      let (segs, rem) := rateScanGo keys fuel [] ((c :: r).drop len)
      (seg :: segs, rem)
    | none => rateScanGo keys fuel (acc ++ [c]) r

def rateScan (keys : List (List Char)) (text : List Char) :
    List (List Char) × List Char :=
  rateScanGo keys (text.length + 1) [] text

/-- JS `text.split(new RegExp('(' + ALT + ')', 'gi'))` : pieces between
matches, with each (captured) match spliced in; empty pieces included. -/
def splitByAltGo (keys : List (List Char)) :
    Nat → List Char → List Char → List (List Char)
  | 0, acc, l => [acc ++ l]
  | _ + 1, acc, [] => [acc]
  | fuel + 1, acc, c :: r =>
    match keys.find? (fun k => ciBegins k (c :: r)) with
    | some k =>
      acc :: (c :: r).take k.length ::
        splitByAltGo keys fuel [] ((c :: r).drop k.length)
    | none => splitByAltGo keys fuel (acc ++ [c]) r

def splitByAlt (keys : List (List Char)) (text : List Char) : List (List Char) :=
  splitByAltGo keys (text.length + 1) [] text

/-- Stable merge of two runs sorted by descending length: on equal lengths
the left run's element comes first, so elements of the original list keep
their relative order.  The length of each string is carried alongside it so
comparisons do not recompute it.  (Written with the bare recursor so that
kernel evaluation avoids the course-of-values overhead of the equation
compiler.) -/
def mergeByLenDesc (xs ys : List (Nat × String)) : List (Nat × String) :=
  @Nat.rec (fun _ => List (Nat × String) → List (Nat × String) → List (Nat × String))
    (fun _ _ => [])
    (fun _ ih => fun xs ys =>
      match xs, ys with
      | [], ys => ys
      | x :: xs', [] => x :: xs'
      | x :: xs', y :: ys' =>
        if y.1 ≤ x.1 then x :: ih xs' (y :: ys') else y :: ih (x :: xs') ys')
    (xs.length + ys.length) xs ys

/-- One bottom-up round: merge adjacent runs pairwise (left run first, so
stability is preserved). -/
def mergePairsByLenDesc (ls : List (List (Nat × String))) :
    List (List (Nat × String)) :=
  @List.rec (List (Nat × String))
    (fun _ => Option (List (Nat × String)) → List (List (Nat × String)))
    (fun pending =>
      match pending with
      | none => []
      | some a => [a])
    (fun a _tl ih => fun pending =>
      match pending with
      | none => ih (some a)
      | some b => mergeByLenDesc b a :: ih none)
    ls none

/-- Bottom-up rounds until one run remains (the fuel bounds the number of
rounds; each round at least halves the run count). -/
def mergeRoundsByLenDesc (fuel : Nat) (ls : List (List (Nat × String))) :
    List (Nat × String) :=
  @Nat.rec (fun _ => List (List (Nat × String)) → List (Nat × String))
    (fun ls => ls.headD [])
    (fun _ ih => fun ls =>
      match ls with
      | [] => []
      | [a] => a
      | b :: c :: r => ih (mergePairsByLenDesc (b :: c :: r)))
    fuel ls

/-- JS `array.sort((a, b) => b.length - a.length)` : stable sort by
descending length (modern engines' `Array.prototype.sort` is stable, and a
stable sort under a fixed comparator is unique, so any stable
implementation — here a bottom-up stable merge sort — computes the
engine's result). -/
def sortByLenDesc (l : List String) : List String :=
  (mergeRoundsByLenDesc (l.length + 1)
    (l.map (fun s => [(s.length, s)]))).map (fun p => p.2)

/-! ## Static tables

The module-level constant tables, transcribed verbatim from the source
(`constants.ts`, `voiceParser.ts`, `tamilLinguisticEngine.ts`).  The
duplicate literal key of `TAMIL_ASR_CORRECTIONS` in the source object
literal (same key, same value, written twice) denotes a single JS object
entry and appears once here. -/

def TAMIL_NUMBER_MAP : List (String × String) :=
  [("ஒன்று", "1"), ("ஒன்னு", "1"), ("ஒரு", "1"), ("ஒண்ணு", "1"), ("ஒன்", "1"), ("ஓன்னு", "1"),
   ("இரண்டு", "2"), ("ரெண்டு", "2"), ("இரெண்டு", "2"), ("ரண்டு", "2"), ("ரெண்ட", "2"),
   ("மூன்று", "3"), ("மூணு", "3"), ("மூன்", "3"), ("மூன்ன", "3"), ("நான்கு", "4"), ("நாலு",
   "4"), ("நாங்கு", "4"), ("நான்", "4"), ("நால", "4"), ("ஐந்து", "5"), ("அஞ்சு", "5"), ("ஐந்",
   "5"), ("ஐஞ்சு", "5"), ("ஆறு", "6"), ("ஆற", "6"), ("ஆறா", "6"), ("ஏழு", "7"), ("ஏழ", "7"),
   ("ஏழா", "7"), ("எட்டு", "8"), ("எட்", "8"), ("எட்ட", "8"), ("ஒன்பது", "9"), ("ஒம்பது", "9"),
   ("ஒன்ப", "9"), ("ஒம்போது", "9"), ("பத்து", "10"), ("பத்", "10"), ("பத்தா", "10"),
   ("பதினொன்று", "11"), ("பதினோரு", "11"), ("பதினொண்ணு", "11"), ("பன்னிரண்டு", "12"),
   ("பன்னெண்டு", "12"), ("பனிரெண்டு", "12"), ("பதிமூன்று", "13"), ("பதின்மூன்று", "13"),
   ("பதினான்கு", "14"), ("பதினாலு", "14"), ("பதினைந்து", "15"), ("பதினஞ்சு", "15"), ("பதினாறு",
   "16"), ("பதினேழு", "17"), ("பதினெட்டு", "18"), ("பத்தொன்பது", "19"), ("பத்தொம்பது", "19"),
   ("இருபது", "20"), ("இருவது", "20"), ("ருபது", "20"), ("இருபத்தைந்து", "25"), ("இருபத்தஞ்சு",
   "25"), ("முப்பது", "30"), ("மூப்பது", "30"), ("நாற்பது", "40"), ("நாப்பது", "40"), ("ஐம்பது",
   "50"), ("ஐம்பத்", "50"), ("அறுபது", "60"), ("எழுபது", "70"), ("எண்பது", "80"), ("தொண்ணூறு",
   "90"), ("நூறு", "100"), ("நூத்", "100"), ("இருநூறு", "200"), ("முந்நூறு", "300"), ("நானூறு",
   "400"), ("ஐந்நூறு", "500"), ("அறுநூறு", "600"), ("எழுநூறு", "700"), ("எண்ணூறு", "800"),
   ("தொள்ளாயிரம்", "900"), ("ஆயிரம்", "1000"), ("அரை", "0.5"), ("அரைக்", "0.5"), ("கால்",
   "0.25"), ("காலு", "0.25"), ("முக்கால்", "0.75"), ("ஒன்னரை", "1.5"), ("ஒண்ணரை", "1.5")]

def ENGLISH_NUMBER_MAP : List (String × String) :=
  [("one", "1"), ("won", "1"), ("wan", "1"), ("two", "2"), ("to", "2"), ("too", "2"), ("tu",
   "2"), ("three", "3"), ("tree", "3"), ("free", "3"), ("four", "4"), ("for", "4"), ("fore",
   "4"), ("foor", "4"), ("five", "5"), ("fife", "5"), ("six", "6"), ("sex", "6"), ("sicks",
   "6"), ("seven", "7"), ("sevan", "7"), ("eight", "8"), ("ate", "8"), ("eit", "8"), ("nine",
   "9"), ("nein", "9"), ("ten", "10"), ("tan", "10"), ("eleven", "11"), ("levan", "11"),
   ("twelve", "12"), ("twelf", "12"), ("thirteen", "13"), ("fourteen", "14"), ("fifteen", "15"),
   ("fiftin", "15"), ("sixteen", "16"), ("seventeen", "17"), ("eighteen", "18"), ("nineteen",
   "19"), ("twenty", "20"), ("tweny", "20"), ("twenti", "20"), ("twenty five", "25"),
   ("twentyfive", "25"), ("thirty", "30"), ("thirdy", "30"), ("forty", "40"), ("fourty", "40"),
   ("fourtie", "40"), ("fifty", "50"), ("fiftie", "50"), ("sixty", "60"), ("seventy", "70"),
   ("eighty", "80"), ("ninety", "90"), ("hundred", "100"), ("hundrad", "100"), ("two hundred",
   "200"), ("three hundred", "300"), ("five hundred", "500"), ("thousand", "1000"), ("half",
   "0.5"), ("haf", "0.5"), ("quarter", "0.25"), ("quater", "0.25"), ("one and half", "1.5"),
   ("one half", "1.5")]

def RATE_CORRECTIONS : List (String × String) :=
  [("rupee", "rupees"), ("rupe", "rupees"), ("rupay", "rupees"), ("rupaya", "rupees"),
   ("roopees", "rupees"), ("rupies", "rupees"), ("rupi", "rupees"), ("rs", "rupees"), ("are",
   "rupees"), ("ars", "rupees"), ("rupess", "rupees"), ("ரூபாய்", "ரூபாய்"), ("ரூபா", "ரூபாய்"),
   ("ருபாய்", "ரூபாய்"), ("ருபா", "ரூபாய்")]

def TAMIL_ASR_CORRECTIONS : List (String × String) :=
  [("தக்காள", "தக்காளி"), ("தக்கால", "தக்காளி"), ("டமேட்", "தக்காளி"), ("வெங்கயம்",
   "வெங்காயம்"), ("வெங்காயம", "வெங்காயம்"), ("ஒனியன்", "வெங்காயம்"), ("உருளக்கிழங்கு",
   "உருளைக்கிழங்கு"), ("உருளகிழங்கு", "உருளைக்கிழங்கு"), ("உருளை", "உருளைக்கிழங்கு"),
   ("கத்தரிக்காய்", "கத்திரிக்காய்"), ("கத்தரி", "கத்திரிக்காய்"), ("கத்ரி", "கத்திரிக்காய்"),
   ("முருங்கை", "முருங்கைக்காய்"), ("முருங்க", "முருங்கைக்காய்"), ("ட்ரம் ஸ்டிக்",
   "முருங்கைக்காய்"), ("வெண்டக்காய்", "வெண்டைக்காய்"), ("வெண்டை", "வெண்டைக்காய்"),
   ("லேடி ஃபிங்கர்", "வெண்டைக்காய்"), ("கிலோகிராம்", "கிலோ"), ("கிலோகிரா", "கிலோ"), ("கிகி",
   "கிலோ"), ("கேஜி", "கிலோ"), ("லிட்டரு", "லிட்டர்"), ("லிட்ட", "லிட்டர்"), ("லிட்", "லிட்டர்"),
   ("கிராமு", "கிராம்"), ("கிரா", "கிராம்"), ("ஜிஎம்", "கிராம்"), ("வாழப்பழம்", "வாழைப்பழம்"),
   ("வாழை", "வாழைப்பழம்"), ("பனானா", "வாழைப்பழம்"), ("ஆப்பல்", "ஆப்பிள்"), ("ஆப்", "ஆப்பிள்"),
   ("ஆப்பிற்", "ஆப்பிள்"), ("ஆரஞ்", "ஆரஞ்சு"), ("ஆரஞ்ச்", "ஆரஞ்சு"), ("ஆர்", "ஆரஞ்சு"),
   ("மாம்பழ", "மாம்பழம்"), ("மாங்", "மாம்பழம்"), ("மேங்கோ", "மாம்பழம்"), ("பாலு", "பால்"),
   ("மில்", "பால்"), ("மில்க்", "பால்"), ("தயிரு", "தயிர்"), ("கர்ட்", "தயிர்"), ("தகிர்",
   "தயிர்"), ("நெய்யு", "நெய்"), ("கீ", "நெய்"), ("அரிசியு", "அரிசி"), ("ரைஸ்", "அரிசி"),
   ("அரிசிய்", "அரிசி"), ("பருப்பு", "பருப்பு"), ("தால்", "பருப்பு"), ("பருப்", "பருப்பு"),
   ("கோதுமையு", "கோதுமை"), ("வீட்", "கோதுமை"), ("டமேட்டோ", "தக்காளி"), ("பொட்டேட்டோ",
   "உருளைக்கிழங்கு"), ("கேரட்டு", "கேரட்"), ("பீன்ஸ", "பீன்ஸ்"), ("ரைஸு", "அரிசி"), ("அரைய்",
   "அரை"), ("கால்லு", "கால்"), ("முக்கால்லு", "முக்கால்"), ("ஒன்னரையு", "ஒன்னரை"), ("ஒண்ணரையு",
   "ஒண்ணரை")]

def codeMixingMap : List (String × String) :=
  [("டமேட்டோ", "தக்காளி"), ("ஒனியன்", "வெங்காயம்"), ("பொட்டேட்டோ", "உருளைக்கிழங்கு"), ("மில்க்",
   "பால்"), ("ரைஸ்", "அரிசி"), ("ஷுகர்", "சர்க்கரை"), ("சால்ட்", "உப்பு"), ("ஆயில்", "எண்ணெய்"),
   ("சிக்கன்", "கோழி"), ("பிஸ்கட்ஸ்", "பிஸ்கட்"), ("சோப்ஸ்", "சோப்பு")]

def TAMIL_ITEM_NAMES : List String :=
  ["தக்காளி", "வெங்காயம்", "உருளைக்கிழங்கு", "உருளை", "கத்திரிக்காய்", "கத்திரி",
   "முருங்கைக்காய்", "பாகற்காய்", "புடலங்காய்", "சுரைக்காய்", "வெண்டைக்காய்", "பீன்ஸ்", "கேரட்",
   "பீட்ரூட்", "முள்ளங்கி", "கீரை", "கொத்தமல்லி", "புதினா", "பூசணிக்காய்", "மிளகாய்",
   "பச்சை மிளகாய்", "இஞ்சி", "பூண்டு", "தேங்காய்", "முட்டைகோஸ்", "காலிஃப்ளவர்", "குடைமிளகாய்",
   "சௌசௌ", "அவரைக்காய்", "பட்டாணி", "சின்ன வெங்காயம்", "பெரிய வெங்காயம்", "வாழைத்தண்டு",
   "நூல்கோல்", "சேப்பங்கிழங்கு", "கருணைக்கிழங்கு", "மரவள்ளிக்கிழங்கு", "புளிச்சை கீரை",
   "அரைக்கீரை", "பசலைக்கீரை", "அகத்தி கீரை", "tomato", "tomatoes", "onion", "onions", "potato",
   "potatoes", "carrot", "carrots", "beans", "green beans", "brinjal", "eggplant", "okra",
   "lady finger", "drumstick", "bitter gourd", "bottle gourd", "ridge gourd", "snake gourd",
   "beetroot", "radish", "spinach", "coriander", "mint", "ginger", "garlic", "coconut",
   "cabbage", "cauliflower", "capsicum", "bell pepper", "chayote", "peas", "sweet potato",
   "tapioca", "yam", "plantain stem", "அரிசி", "பருப்பு", "கோதுமை", "ரவை", "மைதா",
   "துவரம் பருப்பு", "உளுந்து", "கடலை பருப்பு", "பாசிப்பருப்பு", "கம்பு", "ராகி", "சோளம்",
   "வரகு", "சாமை", "குதிரைவாலி", "தினை", "கருப்பு உளுந்து", "வெள்ளை உளுந்து", "மொச்சை",
   "காராமணி", "rice", "dal", "lentils", "wheat", "semolina", "maida", "flour", "toor dal",
   "moong dal", "urad dal", "chana dal", "masoor dal", "pearl millet", "finger millet", "corn",
   "maize", "barley", "oats", "quinoa", "black gram", "green gram", "chickpeas", "atta",
   "வாழைப்பழம்", "ஆப்பிள்", "ஆரஞ்சு", "திராட்சை", "மாம்பழம்", "மாங்காய்", "பப்பாளி", "கொய்யா",
   "தர்பூசணி", "பேரிக்காய்", "மாதுளை", "சப்போட்டா", "அன்னாசிப்பழம்", "கமலாப்பழம்", "நாவற்பழம்",
   "இலந்தைப்பழம்", "நெல்லிக்காய்", "எலுமிச்சை", "சாத்துக்குடி", "இளநீர்", "பலாப்பழம்", "banana",
   "bananas", "apple", "apples", "orange", "oranges", "grapes", "mango", "mangoes", "papaya",
   "guava", "watermelon", "pear", "pomegranate", "sapota", "pineapple", "custard apple",
   "jamun", "jujube", "gooseberry", "lemon", "lime", "sweet lime", "coconut water", "jackfruit",
   "dates", "figs", "kiwi", "dragon fruit", "passion fruit", "பால்", "தயிர்", "மோர்", "நெய்",
   "வெண்ணெய்", "பன்னீர்", "சீஸ்", "க்ரீம்", "மில்க் பவுடர்", "மில்க்மெய்ட்", "ஐஸ் க்ரீம்",
   "milk", "curd", "yogurt", "buttermilk", "ghee", "butter", "paneer", "cheese", "cream",
   "milk powder", "condensed milk", "ice cream", "mozzarella", "cottage cheese", "முட்டை",
   "மீன்", "கோழி", "சிக்கன்", "மட்டன்", "இறால்", "நண்டு", "கல்மீன்", "வாவல் மீன்", "சுறா மீன்",
   "கெத்தி மீன்", "வஞ்சிரம்", "egg", "eggs", "chicken", "mutton", "goat meat", "beef", "pork",
   "fish", "prawns", "shrimp", "crab", "squid", "tuna", "salmon", "sardines", "mackerel",
   "pomfret", "kingfish", "உப்பு", "சர்க்கரை", "மிளகு", "மஞ்சள்", "சீரகம்", "கடுகு", "வெந்தயம்",
   "கொத்தமல்லி விதை", "ஏலக்காய்", "லவங்கம்", "தாலிச்சம் பத்திரி", "சின்னமன்", "சோம்பு",
   "பெருங்காயம்", "மிளகாய்த்தூள்", "கரம் மசாலா", "சாம்பார் பவுடர்", "ரசம் பவுடர்", "salt",
   "sugar", "jaggery", "pepper", "turmeric", "cumin", "mustard seeds", "fenugreek",
   "coriander seeds", "cardamom", "cloves", "bay leaves", "cinnamon", "fennel", "asafoetida",
   "red chili powder", "garam masala", "sambar powder", "rasam powder", "vanilla", "oregano",
   "basil", "எண்ணெய்", "நல்லெண்ணெய்", "தேங்காய் எண்ணெய்", "கடலை எண்ணெய்", "சூரியகாந்தி எண்ணெய்",
   "ஆலிவ் ஆயில்", "நெய்", "oil", "cooking oil", "sesame oil", "coconut oil", "groundnut oil",
   "sunflower oil", "olive oil", "mustard oil", "ghee", "vegetable oil", "சோப்பு", "ஷாம்பூ",
   "டூத் பேஸ்ட்", "டூத் பிரஷ்", "டிஷ் வாஷ்", "கிளீனிங் பவுடர்", "நாப்கின்", "டிஷ்யூ", "பேப்பர்",
   "பேனா", "பென்சில்", "ரப்பர்", "நோட்புக்", "கேண்டில்", "மாட்ச் பாக்ஸ்", "soap", "shampoo",
   "toothpaste", "toothbrush", "dishwash", "detergent", "cleaning powder", "napkin", "tissue",
   "toilet paper", "pen", "pencil", "eraser", "notebook", "candle", "matches", "batteries",
   "bulb", "incense sticks", "mosquito coil", "டீ", "காபி", "பால் டீ", "கிரீன் டீ", "ஜூஸ்",
   "கோல்ட் ட்ரிங்க்", "மினரல் வாட்டர்", "பட்டர்மில்க்", "லஸ்ஸி", "tea", "coffee", "green tea",
   "juice", "cold drink", "soft drink", "mineral water", "buttermilk", "lassi", "energy drink",
   "பிஸ்கட்", "நம்கீன்", "சிப்ஸ்", "சாக்லேட்", "ட்டாஃபி", "கேக்", "ரஸ்க்", "மிக்சர்",
   "முருக்கு", "சீடை", "biscuits", "cookies", "namkeen", "chips", "chocolate", "toffee", "cake",
   "rusk", "mixture", "murukku", "seedai", "crackers", "பேனா", "பென்சில்", "ரப்பர்", "நோட்புக்",
   "பேப்பர்", "என்வலப்", "स्केल", "கிளிப்", "ஸ்டேப்பிளர்", "கேர்பன் பேப்பர்", "pen", "pencil",
   "eraser", "notebook", "paper", "envelope", "ruler", "scale", "clip", "stapler",
   "carbon paper", "marker", "highlighter", "glue", "tape", "மாத்திரை", "மருந்து", "சிரப்",
   "ஆன்டிசெப்டிக்", "பேண்டேஜ்", "காட்டன்", "தெர்மாமீட்டர்", "சானிடைசர்", "மாஸ்க்", "tablet",
   "medicine", "syrup", "antiseptic", "bandage", "cotton", "thermometer", "sanitizer", "mask",
   "vitamin", "சோப்பு", "ஷாம்பூ", "ஹேர் ஆயில்", "க்ரீம்", "லோஷன்", "டியோடரன்ட்", "பெர்ஃப்யூம்",
   "ஹேர் ஜெல்", "soap", "shampoo", "hair oil", "cream", "lotion", "deodorant", "perfume",
   "hair gel", "face wash", "moisturizer"]

def RATE_KEYWORDS : List String :=
  ["rupees", "rupee", "rupay", "rupaya", "roopees", "rupies", "rs", "r", "inr", "₹", "ரூபாய்",
   "ரூபா", "ரூ", "விலை", "ரூபாய்க்கு", "ரூபை", "bucks", "price"]

def QUANTITY_KEYWORDS : List String :=
  ["kilogram", "kilograms", "kilo", "kilos", "kgs", "kg", "gram", "grams", "gms", "gm", "g",
   "liters", "liter", "litre", "litres", "ltr", "l", "milliliters", "milliliter", "milli", "ml",
   "packets", "packet", "pkt", "pack", "packs", "bundle", "bundles", "bunch", "bunches",
   "boxes", "box", "pieces", "piece", "pcs", "pc", "nos", "number", "numbers", "count", "dozen",
   "dozens", "doz", "unit", "units", "கிலோ", "கிலோகிராம்", "கி.கி", "கி", "கிராம்", "கிரா",
   "லிட்டர்", "லி", "மில்லி", "மி.லி", "பாக்கெட்", "பாக்", "பேக்", "கட்டு", "கட்டுகள்",
   "எண்ணிக்கை", "பீஸ்", "பிஸ்", "டஜன்", "மூட்டை", "பெட்டி"]

def COLLOQUIAL_TO_FORMAL : List (String × String) :=
  [("தக்காளி", "தக்காளி"), ("தக்காள", "தக்காளி"), ("வெங்காயம்", "வெங்காயம்"), ("வெங்காளம்",
   "வெங்காயம்"), ("வெங்கயம்", "வெங்காயம்"), ("உருளை", "உருளைக்கிழங்கு"), ("உருளக்கிழங்கு",
   "உருளைக்கிழங்கு"), ("கத்திரி", "கத்திரிக்காய்"), ("கத்தரிக்காய்", "கத்திரிக்காய்"),
   ("பீன்ஸ்", "பீன்ஸ்"), ("பீன்ஸ்காய்", "பீன்ஸ்"), ("பரங்கி", "பரங்கிக்காய்"), ("சேனை",
   "சேனைக்கிழங்கு"), ("கேரட்", "கேரட்"), ("காரட்", "கேரட்"), ("பீட்ரூட்", "பீட்ரூட்"),
   ("முள்ளங்கி", "முள்ளங்கி"), ("முல்லங்கி", "முள்ளங்கி"), ("அரிசி", "அரிசி"), ("அரிச",
   "அரிசி"), ("பருப்பு", "பருப்பு"), ("பருப்ப", "பருப்பு"), ("துவரம்", "துவரம் பருப்பு"),
   ("துவர", "துவரம் பருப்பு"), ("உளுந்து", "உளுந்து"), ("உளுத்தம்", "உளுத்தம் பருப்பு"),
   ("கடலை", "கடலைப்பருப்பு"), ("பாசிப்பருப்பு", "பாசிப்பருப்பு"), ("பாசி", "பாசிப்பருப்பு"),
   ("வாழைப்பழம்", "வாழைப்பழம்"), ("வாழப்பழம்", "வாழைப்பழம்"), ("ஆப்பிள்", "ஆப்பிள்"), ("ஆப்பள்",
   "ஆப்பிள்"), ("ஆரஞ்சு", "ஆரஞ்சு"), ("ஆரஞ்ச", "ஆரஞ்சு"), ("திராட்சை", "திராட்சை"), ("திராச்சை",
   "திராட்சை"), ("மாம்பழம்", "மாம்பழம்"), ("மாங்கா", "மாங்காய்"), ("பப்பாளி", "பப்பாளி"),
   ("பப்பாய", "பப்பாளி"), ("மிளகாய்", "மிளகாய்"), ("மிளகா", "மிளகாய்"), ("மிளகு", "மிளகு"),
   ("மல்லி", "மல்லி"), ("கொத்தமல்லி", "கொத்தமல்லி"), ("கொத்துமல்லி", "கொத்தமல்லி"), ("புதினா",
   "புதினா"), ("புதின", "புதினா"), ("கறிவேப்பிலை", "கறிவேப்பிலை"), ("கறிவேப்ல", "கறிவேப்பிலை"),
   ("இஞ்சி", "இஞ்சி"), ("இஞ்ச", "இஞ்சி"), ("பூண்டு", "பூண்டு"), ("பூண்ட", "பூண்டு"), ("எண்ணெய்",
   "எண்ணெய்"), ("எண்ணை", "எண்ணெய்"), ("உப்பு", "உப்பு"), ("சர்க்கரை", "சர்க்கரை"), ("சக்கர",
   "சர்க்கரை"), ("பால்", "பால்"), ("முட்டை", "முட்டை"), ("முட்ட", "முட்டை"), ("தயிர்", "தயிர்"),
   ("தயிரு", "தயிர்"), ("நெய்", "நெய்"), ("வெண்ணெய்", "வெண்ணெய்"), ("வெண்ணை", "வெண்ணெய்"),
   ("பன்னீர்", "பன்னீர்"), ("பனீர்", "பன்னீர்"), ("கோழி", "கோழி இறைச்சி"), ("சிக்கன்",
   "கோழி இறைச்சி"), ("மட்டன்", "ஆட்டு இறைச்சி"), ("மீன்", "மீன்"), ("கிலோ", "கிலோகிராம்"),
   ("கிலா", "கிலோகிராம்"), ("கேஜி", "கிலோகிராம்"), ("கிராம்", "கிராம்"), ("கிரா", "கிராம்"),
   ("லிட்டர்", "லிட்டர்"), ("லிட்டரு", "லிட்டர்"), ("பாக்கெட்", "பாக்கெட்"), ("பாக்கட்",
   "பாக்கெட்"), ("பாக்", "பாக்கெட்"), ("ருபாய்", "ரூபாய்"), ("ருபா", "ரூபாய்"), ("ருவா",
   "ரூபாய்"), ("ரூபை", "ரூபாய்"), ("ரூ", "ரூபாய்")]

def TAMIL_GROCERY_LEXICON : List String :=
  ["தக்காளி", "வெங்காயம்", "உருளைக்கிழங்கு", "கத்திரிக்காய்", "முருங்கைக்காய்", "பாகற்காய்",
   "புடலங்காய்", "சுரைக்காய்", "பீர்க்கங்காய்", "வெண்டைக்காய்", "அவரைக்காய்", "பீன்ஸ்",
   "பட்டாணி", "முட்டைகோஸ்", "காலிஃப்ளவர்", "கேரட்", "பீட்ரூட்", "முள்ளங்கி", "வாழைத்தண்டு",
   "வாழைப்பூ", "காய்கறி", "கீரை", "பசலைக்கீரை", "முருங்கைக்கீரை", "அரைக்கீரை", "மணத்தக்காளி",
   "பொன்னாங்கண்ணி", "வெந்தயக்கீரை", "கொத்தமல்லி", "புதினா", "கறிவேப்பிலை", "பூசணிக்காய்",
   "சௌசௌ", "குடைமிளகாய்", "பச்சைமிளகாய்", "தேங்காய்", "இஞ்சி", "பூண்டு", "சின்ன வெங்காயம்",
   "பெரிய வெங்காயம்", "அரிசி", "புழுங்கல் அரிசி", "பாசுமதி அரிசி", "பொன்னி அரிசி", "கோதுமை",
   "ரவை", "மைதா", "சோளம்", "கம்பு", "ராகி", "கேழ்வரகு", "பருப்பு", "துவரம் பருப்பு",
   "கடலைப்பருப்பு", "உளுத்தம் பருப்பு", "பாசிப்பருப்பு", "மசூர் பருப்பு", "கொண்டக்கடலை",
   "ராஜ்மா", "உளுந்து", "பயறு", "மொச்சை", "சுண்டல்", "வாழைப்பழம்", "ஆப்பிள்", "ஆரஞ்சு",
   "திராட்சை", "மாம்பழம்", "மாங்காய்", "பப்பாளி", "கொய்யா", "சப்போட்டா", "பலாப்பழம்", "அன்னாசி",
   "தர்பூசணி", "முலாம்பழம்", "பேரிக்காய்", "மாதுளை", "எலுமிச்சை", "சாத்துக்குடி", "நாரத்தை",
   "நெல்லிக்காய்", "பால்", "தயிர்", "மோர்", "நெய்", "வெண்ணெய்", "பன்னீர்", "சீஸ்", "மிளகு",
   "மிளகாய்", "மஞ்சள்", "சீரகம்", "கடுகு", "வெந்தயம்", "சோம்பு", "ஏலக்காய்", "பட்டை",
   "கிராம்பு", "ஜாதிக்காய்", "உப்பு", "சர்க்கரை", "வெல்லம்", "தேன்", "எண்ணெய்", "நல்லெண்ணெய்",
   "தேங்காய் எண்ணெய்", "கடலை எண்ணெய்", "முட்டை", "கோழி இறைச்சி", "ஆட்டு இறைச்சி", "மீன்",
   "ரூபாய்", "கிலோகிராம்", "கிராம்", "லிட்டர்", "மில்லி லிட்டர்", "பாக்கெட்", "கட்டு", "டஜன்",
   "பெட்டி", "மூட்டை"]

def PRESERVED_ENGLISH_WORDS : List String :=
  ["kg", "g", "ml", "l", "ltr", "packet", "pack", "box", "dozen", "chicken", "mutton", "fish",
   "rice", "oil", "sugar", "salt", "tomato", "potato", "onion", "carrot", "apple", "orange",
   "banana", "mango", "milk", "curd", "butter", "cheese", "paneer", "rs", "rupees", "rupee",
   "inr"]

/-! ## Tamil linguistic engine (`tamilLinguisticEngine.ts`)

The engine's `processTamilText` also collects diagnostic data (a list of
correction events and advisory orthography issues) in its result record;
none of it influences the returned `processedText`, and `formalizeTamilForPDF`
returns only `processedText`, so the embedding computes the processed text. -/

/-- Unbracketed minimum on `Nat` through the primitive comparison. -/
def nminOf (a b : Nat) : Nat := cond (Nat.ble a b) a b

/-- Levenshtein DP, one row update (`dp[i][·]` from `dp[i-1][·]`): given the
previous row `pPrev :: pRest` and the already-computed cell `vPrev` to the
left, each new cell is `min (min (above + 1) (left + 1))
(aboveLeft + cost)`.  Characters are compared through their code points
(`Char.toNat` is injective, so this is character equality), and the
recursion is written with the bare recursor so that kernel evaluation
avoids the course-of-values overhead of the equation compiler. -/
def levenshteinRowGo (c : Nat) (bs : List Nat) : List Nat → Nat → List Nat :=
  @List.rec Nat (fun _ => List Nat → Nat → List Nat)
    (fun _ _ => [])
    (fun b _bs ih => fun prow vPrev =>
      match prow with
      | [] => []
      | pPrev :: pRest =>
        let pj := pRest.headD 0
        let cost := cond (Nat.beq c b) 0 1
        let v := nminOf (nminOf (Nat.succ pj) (Nat.succ vPrev)) (Nat.add pPrev cost)
        v :: ih pRest v)
    bs

/-- The `levenshteinDistance` of the engine (identical DP to the
`calculateSimilarity` matrix of `voiceParser.ts`): row `i` is computed from
row `i - 1` left to right, starting from the base row `0, 1, …, n`; the
distance is the last cell of the last row. -/
def levenshteinDistance (str1 str2 : List Char) : Nat :=
  let s2 := str2.map Char.toNat
  (@List.rec Nat (fun _ => List Nat → List Nat)
    (fun row => row)
    (fun c _cs ih => fun row =>
      let h := row.headD 0
      ih ((h + 1) :: levenshteinRowGo c s2 row (h + 1)))
    (str1.map Char.toNat)
    (List.range (s2.length + 1))).getLastD 0

/-- Engine `calculateSimilarity` : `1 - distance / max(len, len)`, with the
empty-empty case defined as 1. -/
def calculateSimilarity (str1 str2 : List Char) : ℚ :=
  let maxLen := max str1.length str2.length
  if maxLen = 0 then 1
  else qSub 1 (qDiv (qOfNat (levenshteinDistance str1 str2)) (qOfNat maxLen))

/-- Engine `findClosestLexiconMatch` (threshold argument made explicit; the
source default, used by its only caller, is `0.75`).  Linear scan keeping
the strictly best similarity; the match is returned only when the best
similarity reaches the threshold, otherwise the original word is returned
with the best similarity still reported. -/
def findClosestLexiconMatch (word : List Char) (threshold : ℚ) :
    List Char × ℚ :=
  let best := TAMIL_GROCERY_LEXICON.foldl
    (fun acc lexiconWord =>
      let s := calculateSimilarity word lexiconWord.data
      if acc.2 < s then (lexiconWord.data, s) else acc)
    (word, 0)
  if threshold ≤ best.2 then best else (word, best.2)

/-- Engine `containsTamil`. -/
def containsTamil (text : List Char) : Bool :=
  text.any isTamilChar

/-- Tamil-block canonical compositions (the four NFC compositions inside
U+0B80–U+0BFF). -/
def tamilCompose (a b : Char) : Option Char :=
  if a.toNat = 0x0B92 ∧ b.toNat = 0x0BD7 then some (Char.ofNat 0x0B94)
  else if a.toNat = 0x0BC6 ∧ b.toNat = 0x0BBE then some (Char.ofNat 0x0BCA)
  else if a.toNat = 0x0BC7 ∧ b.toNat = 0x0BBE then some (Char.ofNat 0x0BCB)
  else if a.toNat = 0x0BC6 ∧ b.toNat = 0x0BD7 then some (Char.ofNat 0x0BCC)
  else none

/-- Engine `normalizeUnicode` (the source calls `String.normalize('NFC')`);
modelled as NFC restricted to the Tamil block's canonical compositions,
which is NFC's entire effect on the Tamil text this engine processes. -/
def normalizeUnicode : List Char → List Char
  | [] => []
  | [c] => [c]
  | a :: b :: rest =>
    match tamilCompose a b with
    | some c => c :: normalizeUnicode rest
    | none => a :: normalizeUnicode (b :: rest)

/-- Zero-width characters removed by `normalizeWhitespace`
(`[​-‍﻿]`). -/
def zeroWidthChar (c : Char) : Bool :=
  (0x200B ≤ c.toNat && c.toNat ≤ 0x200D) || c.toNat == 0xFEFF

/-- Engine `normalizeWhitespace`. -/
def normalizeWhitespace (text : List Char) : List Char :=
  jsTrim (collapseWs (text.filter (fun c => !zeroWidthChar c)))

/-- Engine `normalizePunctuation`, character by character (the source's four
sequential global replaces are independent, so a single pass is exact). -/
def normalizePunctuationChar (c : Char) : List Char :=
  if c.toNat = 0x201C ∨ c.toNat = 0x201D then ['"']
  else if c.toNat = 0x2018 ∨ c.toNat = 0x2019 then [Char.ofNat 39]
  else if c.toNat = 0x2026 then ['.', '.', '.']
  else if c.toNat = 0x2013 ∨ c.toNat = 0x2014 then ['-']
  else [c]

def normalizePunctuation (text : List Char) : List Char :=
  concatAll (text.map normalizePunctuationChar)

/-- Engine `handleCodeMixing` : split at whitespace (keeping separators),
pass preserved English loanwords through unchanged, pass everything else
through unchanged, and re-join — the identity, written as the source writes
it. -/
def handleCodeMixing (text : List Char) : List Char :=
  concatAll ((splitWsKeep text).map (fun word =>
    if PRESERVED_ENGLISH_WORDS.any (fun w => w.data == lowerStr word) then word
    else word))

/-- Lookup in a `Record<string, string>` object literal. -/
def lookupMap (m : List (String × String)) (w : List Char) : Option (List Char) :=
  (m.find? (fun kv => kv.1.data == w)).map (fun kv => kv.2.data)

/-- One word of `processTamilText` step 3: whitespace runs and
number/punctuation tokens pass through; then the diglossia map (exact, then
lower-cased key), then — for Tamil-containing words only — fuzzy lexicon
correction at threshold `0.75`, applied only when the returned match differs
from the word and its similarity reaches the threshold. -/
def processWord (word : List Char) : List Char :=
  if word ≠ [] ∧ word.all jsIsSpace then word
  else if word ≠ [] ∧ word.all
      (fun c => isDigitChar c || c == '.' || c == ',' || c == '₹') then word
  else
    match lookupMap COLLOQUIAL_TO_FORMAL word with
    | some f => f
    | none =>
      match lookupMap COLLOQUIAL_TO_FORMAL (lowerStr word) with
      | some f => f
      | none =>
        if containsTamil word then
          let r := findClosestLexiconMatch word (Rat.divInt 3 4)
          if r.1 ≠ word ∧ Rat.divInt 3 4 ≤ r.2 then r.1 else word
        else word

/-- Engine `processTamilText`, restricted to the `processedText` field of its
result (see the section comment). -/
def processTamilText (rawText : List Char) : List Char :=
  if rawText = [] ∨ jsTrim rawText = [] then rawText
  else
    let text := normalizeUnicode rawText
    let text := normalizeWhitespace text
    let text := normalizePunctuation text
    let text := handleCodeMixing text
    concatAll ((splitWsKeep text).map processWord)

/-- Engine `formalizeTamilForPDF` : the processed text of
`processTamilText`. -/
def formalizeTamilForPDF (rawText : List Char) : List Char :=
  processTamilText rawText

/-! ## Voice parser (`services/voiceParser.ts`) -/

/-- Output record (`ParsedVoiceData` in `types.ts`): absent fields are
`none`. -/
structure ParsedVoiceData where
  name : Option String
  quantity : Option String
  rate : Option ℚ
deriving DecidableEq, Repr

/-- The module-level keyword/lexicon arrays that `parseContinuousInput`
sorts in place (explicit module state; see the header comment). -/
structure ParserTables where
  RATE_KEYWORDS : List String
  QUANTITY_KEYWORDS : List String
  TAMIL_ITEM_NAMES : List String
deriving DecidableEq, Repr

/-- The arrays as loaded at module start-up. -/
def initialTables : ParserTables :=
  ⟨RATE_KEYWORDS, QUANTITY_KEYWORDS, TAMIL_ITEM_NAMES⟩

/-- The `calculateSimilarity` local to `voiceParser.ts` — the identical
Levenshtein DP and formula as the engine's. -/
def calculateSimilarityVP (str1 str2 : List Char) : ℚ :=
  calculateSimilarity str1 str2

/-- Source `performSemanticVerification` : fuzzy-match a word against the
(current) `TAMIL_ITEM_NAMES` array at threshold `0.8`, keeping the strictly
best-scoring item, returning the original word when nothing qualifies. -/
def performSemanticVerification (items : List String) (word : List Char) :
    List Char :=
  let normalizedWord := jsTrim (lowerStr word)
  (items.foldl
    (fun acc item =>
      let s := calculateSimilarityVP normalizedWord (lowerStr item.data)
      if Rat.divInt 4 5 ≤ s ∧ acc.2 < s then (item.data, s) else acc)
    (word, (0 : ℚ))).1

/-- The `[.,;:]+ → ' '` replacement of `preprocessTranscript` step 1. -/
def punctRunChar (c : Char) : Bool :=
  c == '.' || c == ',' || c == ';' || c == ':'

def replacePunctRunsGo : Bool → List Char → List Char
  | _, [] => []
  | inRun, c :: r =>
    if punctRunChar c then
      (if inRun then [] else [' ']) ++ replacePunctRunsGo true r
    else
      c :: replacePunctRunsGo false r

def replacePunctRuns (l : List Char) : List Char :=
  replacePunctRunsGo false l

/-- Step 4 of `preprocessTranscript` : words longer than two characters with
no digit that are not rate or quantity keywords go through semantic
verification. -/
def verifyWord (tbl : ParserTables) (word : List Char) : List Char :=
  if 2 < word.length ∧ ¬ word.any isDigitChar = true ∧
     ¬ tbl.RATE_KEYWORDS.any (fun k => lowerStr k.data == lowerStr word) = true ∧
     ¬ tbl.QUANTITY_KEYWORDS.any (fun k => lowerStr k.data == lowerStr word) = true
  then performSemanticVerification tbl.TAMIL_ITEM_NAMES word
  else word

/-- Source `preprocessTranscript` : ASR-artifact punctuation, code-mixing
map, ASR-correction map, per-word semantic verification, whitespace
normalization. -/
def preprocessTranscript (tbl : ParserTables) (text : List Char) : List Char :=
  let p1 := replacePunctRuns text
  let p2 := codeMixingMap.foldl (fun t kv => bWordReplace kv.1.data kv.2.data t) p1
  let p3 := TAMIL_ASR_CORRECTIONS.foldl
    (fun t kv => bWordReplace kv.1.data kv.2.data t) p2
  let p4 := joinSpace ((splitWsPlain p3).map (verifyWord tbl))
  jsTrim (collapseWs p4)

/-- Source `normalizeNumbers` : lowercase, Tamil number words, English
number words, rate-keyword corrections, compound-number merge, whitespace
cleanup. -/
def normalizeNumbers (text : List Char) : List Char :=
  let n0 := lowerStr text
  let n1 := TAMIL_NUMBER_MAP.foldl
    (fun t kv => wordBoundedReplace kv.1.data kv.2.data t) n0
  let n2 := ENGLISH_NUMBER_MAP.foldl
    (fun t kv => wordBoundedReplace kv.1.data kv.2.data t) n1
  let n3 := RATE_CORRECTIONS.foldl
    (fun t kv => rateCorrReplace kv.1.data kv.2.data t) n2
  let n4 := compoundMerge n3
  jsTrim (collapseWs n4)

/-- Source `buildPattern` : copy the keyword array, sort it by descending
length (stable), escape regex metacharacters (escaping only makes each
keyword match literally, so the alternation is the sorted keyword list). -/
def buildKeys (keywords : List String) : List (List Char) :=
  (sortByLenDesc keywords).map String.data

/-- Step 1 of `parseSegment` : `normalizeNumbers(segment.toLowerCase()
.trim())` followed by comma removal and whitespace cleanup. -/
def psText (segment : List Char) : List Char :=
  jsTrim (collapseWs
    ((normalizeNumbers (jsTrim (lowerStr segment))).filter (fun c => !(c == ','))))

/-- The unit alternation of the Tamil fraction fallback patterns. -/
def quantityFractionUnits : List (List Char) :=
  [("கிலோ").data, ("லிட்டர்").data, ("kg").data, ("l").data]

/-- Step 2 of `parseSegment` : quantity extraction.  Returns
`(quantityNumber, quantity, textAfter)`.  The number-then-unit pattern is
tried first, then unit-then-number, then the three Tamil fraction patterns;
`quantityNumber` is `parseFloat(numStr) || 1` and the stored `quantity`
string is rebuilt from the coerced number (template
`${quantityNumber} ${unitStr}`, trimmed). -/
def psQuantityStage (qtyKeys : List (List Char)) (text : List Char) :
    ℚ × Option (List Char) × List Char :=
  match findNumKey qtyKeys true text with
  | some (numStr, unitStr, matched) =>
    let qn := if parseDecimal numStr = 0 then 1 else parseDecimal numStr
    (qn, some (jsTrim (ratToChars qn ++ ' ' :: unitStr)),
     jsTrim (replaceFirstStr matched [' '] text))
  | none =>
    match findKeyNum qtyKeys text with
    | some (unitStr, numStr, matched) =>
      let qn := if parseDecimal numStr = 0 then 1 else parseDecimal numStr
      (qn, some (jsTrim (ratToChars qn ++ ' ' :: unitStr)),
       jsTrim (replaceFirstStr matched [' '] text))
    | none =>
      match findFraction ("அரை").data quantityFractionUnits text with
      | some m =>
        (Rat.divInt 1 2, some (jsTrim m), jsTrim (replaceFirstStr m [' '] text))
      | none =>
        match findFraction ("கால்").data quantityFractionUnits text with
        | some m =>
          (Rat.divInt 1 4, some (jsTrim m), jsTrim (replaceFirstStr m [' '] text))
        | none =>
          match findFraction ("முக்கால்").data quantityFractionUnits text with
          | some m =>
            (Rat.divInt 3 4, some (jsTrim m), jsTrim (replaceFirstStr m [' '] text))
          | none => (1, none, text)

/-- Step 3 of `parseSegment` : price extraction (`totalPrice`).  The
number-then-keyword pattern is tried before keyword-then-number; the matched
total is removed from the text. -/
def psPriceStage (rateKeys : List (List Char)) (text : List Char) :
    Option ℚ × List Char :=
  match findNumKey rateKeys false text with
  | some (numStr, _, matched) =>
    (some (parseDecimal numStr), jsTrim (replaceFirstStr matched [' '] text))
  | none =>
    match findKeyNum rateKeys text with
    | some (_, numStr, matched) =>
      (some (parseDecimal numStr), jsTrim (replaceFirstStr matched [' '] text))
    | none => (none, text)

/-- Steps 4–5 of `parseSegment` : the rate is `totalPrice / quantityNumber`
when the quantity number is positive (`totalPrice` otherwise), and when the
rate is still JS-falsy (`null` or `0`) a remaining standalone number is
taken as the total price — but only when a quantity was found. -/
def psRateStage (qn : ℚ) (qty : Option (List Char)) (tp : Option ℚ)
    (text : List Char) : Option ℚ × List Char :=
  let rate0 : Option ℚ :=
    match tp with
    | some p => if 0 < qn then some (qDiv p qn) else some p
    | none => none
  if rate0 = none ∨ rate0 = some 0 then
    match findStandaloneNumber text with
    | some numStr =>
      match qty with
      | some _ =>
        (some (qDiv (parseDecimal numStr) qn),
         jsTrim (replaceFirstStr numStr [' '] text))
      | none => (rate0, text)
    | none => (rate0, text)
  else (rate0, text)

/-- Steps 6–7 of `parseSegment` : name extraction (strip characters outside
`\w`, whitespace, the Tamil block and `-`; trim; collapse whitespace), Tamil
formalization when the residue contains Tamil, and ASCII capitalization of a
non-Tamil first character. -/
def stripNameChar (c : Char) : Char :=
  if isWordChar c || jsIsSpace c || isTamilChar c || c.toNat == 45 then c else ' '

def psNameStage (text : List Char) : List Char :=
  let name := collapseWs (jsTrim (text.map stripNameChar))
  let name := if containsTamil name then formalizeTamilForPDF name else name
  if 0 < name.length ∧ ¬ containsTamil (name.take 1) = true then
    match name with
    | c :: rest => toUpperChar c :: rest
    | [] => []
  else name

/-- Source `parseSegment` (also exported as `parseVoiceInput`), assembled
from its stages. -/
def parseSegment (tbl : ParserTables) (segment : List Char) : ParsedVoiceData :=
  let text := psText segment
  let quant := psQuantityStage (buildKeys tbl.QUANTITY_KEYWORDS) text
  let price := psPriceStage (buildKeys tbl.RATE_KEYWORDS) quant.2.2
  let rated := psRateStage quant.1 quant.2.1 price.1 price.2
  let name := psNameStage rated.2
  ⟨if name = [] then none else some (String.mk name),
   quant.2.1.map String.mk, rated.1⟩

/-- Projection: the quantity number (`quantityNumber`) `parseSegment`
computes for a segment, used as the rate divisor. -/
def psQN (tbl : ParserTables) (segment : List Char) : ℚ :=
  (psQuantityStage (buildKeys tbl.QUANTITY_KEYWORDS) (psText segment)).1

/-- Projection: the extracted `quantity` string. -/
def psQuantity (tbl : ParserTables) (segment : List Char) : Option (List Char) :=
  (psQuantityStage (buildKeys tbl.QUANTITY_KEYWORDS) (psText segment)).2.1

/-- Projection: the spoken total price (`totalPrice`) extracted by the price
patterns of `parseSegment` (before any standalone-number fallback). -/
def psTotalPrice (tbl : ParserTables) (segment : List Char) : Option ℚ :=
  (psPriceStage (buildKeys tbl.RATE_KEYWORDS)
    (psQuantityStage (buildKeys tbl.QUANTITY_KEYWORDS) (psText segment)).2.2).1

/-- JS truthiness of a parse result for the keep-filter
(`parsed.name || parsed.quantity`). -/
def keepResult (p : ParsedVoiceData) : Bool :=
  p.name.isSome || p.quantity.isSome

/-- The `TAMIL_ITEM_NAMES.some(name => name.toLowerCase() ===
part.toLowerCase())` membership test. -/
def isItemName (items : List String) (part : List Char) : Bool :=
  items.any (fun name => lowerStr name.data == lowerStr part)

/-- The secondary-segmentation accumulation loop (`parseContinuousInput`
lines 694–715): an item name always starts a new segment (parsing the
accumulated one if non-blank), other parts are appended with a space.
Returns the parsed-and-kept results and the final accumulated segment. -/
def secondaryLoop (tbl : ParserTables) :
    List (List Char) → List Char → List ParsedVoiceData × List Char
  | [], cs => ([], cs)
  | p :: ps, cs =>
    let part := jsTrim p
    if isItemName tbl.TAMIL_ITEM_NAMES part then
      let pushed :=
        if (jsTrim cs).isEmpty then []
        else
          let parsed := parseSegment tbl cs
          if keepResult parsed then [parsed] else []
      let res := secondaryLoop tbl ps part
      (pushed ++ res.1, res.2)
    else
      secondaryLoop tbl ps (cs ++ ' ' :: part)

/-- The remaining-text accumulation loop of the primary path
(`parseContinuousInput` lines 737–753).  It differs from `secondaryLoop` :
an item name only starts a new segment when the accumulator is non-blank
(otherwise it is appended with a space like a plain part). -/
def remainingLoop (tbl : ParserTables) :
    List (List Char) → List Char → List ParsedVoiceData × List Char
  | [], cs => ([], cs)
  | p :: ps, cs =>
    let part := jsTrim p
    if isItemName tbl.TAMIL_ITEM_NAMES part && !(jsTrim cs).isEmpty then
      let parsed := parseSegment tbl cs
      let pushed := if keepResult parsed then [parsed] else []
      let res := remainingLoop tbl ps part
      (pushed ++ res.1, res.2)
    else
      remainingLoop tbl ps (cs ++ ' ' :: part)

/-- The item-name split-and-filter both paths apply
(`.split(itemSplitRegex).filter(p => p.trim())`). -/
def itemParts (items : List String) (text : List Char) : List (List Char) :=
  (splitByAlt (items.map String.data) text).filter (fun p => !(jsTrim p).isEmpty)

/-- Handling of the text after the last price boundary
(`parseContinuousInput` lines 726–760, with `TAMIL_ITEM_NAMES` already
sorted): split at item names, run the accumulation loop, and push the parse
of the final accumulated segment unconditionally (when non-blank). -/
def handleRemaining (tbl : ParserTables) (remaining : List Char) :
    List ParsedVoiceData :=
  let res := remainingLoop tbl (itemParts tbl.TAMIL_ITEM_NAMES remaining) []
  res.1 ++ (if (jsTrim res.2).isEmpty then [] else [parseSegment tbl res.2])

/-- The secondary path (`parseContinuousInput` lines 683–723, with
`TAMIL_ITEM_NAMES` already sorted): split the whole normalized transcript at
item names, run the accumulation loop, and push the parse of the final
segment only when it has a name or a quantity. -/
def secondaryPath (tbl : ParserTables) (normalized : List Char) :
    List ParsedVoiceData :=
  let res := secondaryLoop tbl (itemParts tbl.TAMIL_ITEM_NAMES normalized) []
  res.1 ++
    (if (jsTrim res.2).isEmpty then []
     else
       let parsed := parseSegment tbl res.2
       if keepResult parsed then [parsed] else [])

/-- Source `parseContinuousInput` with the module state explicit: the input
tables are the current `RATE_KEYWORDS` / `QUANTITY_KEYWORDS` /
`TAMIL_ITEM_NAMES` arrays, and the returned tables reflect the in-place
`Array.prototype.sort` calls the function performs on them (line 655 always
sorts `RATE_KEYWORDS`; lines 685 and 729 sort `TAMIL_ITEM_NAMES` on the
secondary path resp. when the primary path has non-blank remaining text). -/
def parseContinuousInputSt (tbl : ParserTables) (fullTranscript : List Char) :
    List ParsedVoiceData × ParserTables :=
  let cleaned := preprocessTranscript tbl fullTranscript
  let normalized := normalizeNumbers cleaned
  let tbl1 : ParserTables :=
    ⟨sortByLenDesc tbl.RATE_KEYWORDS, tbl.QUANTITY_KEYWORDS, tbl.TAMIL_ITEM_NAMES⟩
  let scan := rateScan (tbl1.RATE_KEYWORDS.map String.data) normalized
  if scan.1.isEmpty then
    let tbl2 : ParserTables :=
      ⟨tbl1.RATE_KEYWORDS, tbl1.QUANTITY_KEYWORDS, sortByLenDesc tbl1.TAMIL_ITEM_NAMES⟩
    (secondaryPath tbl2 normalized, tbl2)
  else
    let closed := (scan.1.map (parseSegment tbl1)).filter keepResult
    if (jsTrim scan.2).isEmpty then (closed, tbl1)
    else
      let tbl2 : ParserTables :=
        ⟨tbl1.RATE_KEYWORDS, tbl1.QUANTITY_KEYWORDS, sortByLenDesc tbl1.TAMIL_ITEM_NAMES⟩
      (closed ++ handleRemaining tbl2 scan.2, tbl2)

/-- Source `parseContinuousInput` called on the tables as loaded at module
start-up (a fresh module instance). -/
def parseContinuousInput (t : String) : List ParsedVoiceData :=
  (parseContinuousInputSt initialTables t.data).1

/-! ## Bridge lemmas for the rational helpers -/

theorem qOfNat_eq (n : Nat) : qOfNat n = (n : ℚ) := by
  unfold qOfNat
  rw [Rat.divInt_eq_div]
  push_cast
  simp

theorem qDiv_eq_div (a b : ℚ) : qDiv a b = a / b := by
  unfold qDiv
  rw [Rat.divInt_eq_div]
  rcases eq_or_ne b 0 with hb | hb
  · subst hb
    simp
  · have hbn : (b.num : ℚ) ≠ 0 := by
      exact_mod_cast fun h => hb (Rat.zero_iff_num_zero.mpr (by exact_mod_cast h))
    have had : ((a.den : ℚ)) ≠ 0 := Nat.cast_ne_zero.mpr a.den_nz
    have hbd : ((b.den : ℚ)) ≠ 0 := Nat.cast_ne_zero.mpr b.den_nz
    have ha' : (a.num : ℚ) = a * (a.den : ℚ) := (div_eq_iff had).mp (Rat.num_div_den a)
    have hb' : (b.num : ℚ) = b * (b.den : ℚ) := (div_eq_iff hbd).mp (Rat.num_div_den b)
    rw [div_eq_div_iff (by push_cast; exact mul_ne_zero had hbn) hb]
    push_cast
    rw [ha', hb']
    ring

theorem qSub_eq_sub (a b : ℚ) : qSub a b = a - b := by
  unfold qSub
  rw [Rat.divInt_eq_div]
  have had : ((a.den : ℚ)) ≠ 0 := Nat.cast_ne_zero.mpr a.den_nz
  have hbd : ((b.den : ℚ)) ≠ 0 := Nat.cast_ne_zero.mpr b.den_nz
  have ha' : (a.num : ℚ) = a * (a.den : ℚ) := (div_eq_iff had).mp (Rat.num_div_den a)
  have hb' : (b.num : ℚ) = b * (b.den : ℚ) := (div_eq_iff hbd).mp (Rat.num_div_den b)
  rw [div_eq_iff (by push_cast; exact mul_ne_zero had hbd)]
  push_cast
  rw [ha', hb']
  ring

theorem parseDecimal_nonneg (l : List Char) : 0 ≤ parseDecimal l := by
  unfold parseDecimal
  dsimp only
  split
  · split_ifs
    · exact Rat.divInt_nonneg (Int.ofNat_nonneg _) (Int.ofNat_nonneg _)
    · rw [qOfNat_eq]
      positivity
  · rw [qOfNat_eq]
    positivity

/-! ## Quantity-number positivity (`parseSegment` steps 2 and 4–5) -/

theorem coerced_pos (numStr : List Char) :
    0 < (if parseDecimal numStr = 0 then 1 else parseDecimal numStr) := by
  split_ifs with h
  · norm_num
  · exact lt_of_le_of_ne (parseDecimal_nonneg numStr) (Ne.symm h)

theorem psQuantityStage_pos (qtyKeys : List (List Char)) (text : List Char) :
    0 < (psQuantityStage qtyKeys text).1 := by
  unfold psQuantityStage
  split
  · exact coerced_pos _
  · split
    · exact coerced_pos _
    · split
      · exact (by decide : (0 : ℚ) < Rat.divInt 1 2)
      · split
        · exact (by decide : (0 : ℚ) < Rat.divInt 1 4)
        · split
          · exact (by decide : (0 : ℚ) < Rat.divInt 3 4)
          · norm_num

theorem psPriceStage_nonneg (rateKeys : List (List Char)) (text : List Char)
    (p : ℚ) (h : (psPriceStage rateKeys text).1 = some p) : 0 ≤ p := by
  unfold psPriceStage at h
  split at h
  · simp only [Option.some.injEq] at h
    exact h ▸ parseDecimal_nonneg _
  · split at h
    · simp only [Option.some.injEq] at h
      exact h ▸ parseDecimal_nonneg _
    · simp at h

theorem psRateStage_of_pos_price (qn : ℚ) (qty : Option (List Char))
    (text : List Char) (p : ℚ) (hq : 0 < qn) (hp : 0 < p) :
    (psRateStage qn qty (some p) text).1 = some (qDiv p qn) := by
  unfold psRateStage
  have h0 : qDiv p qn ≠ 0 := by
    rw [qDiv_eq_div]
    exact div_ne_zero hp.ne' hq.ne'
  simp only [if_pos hq]
  rw [if_neg]
  push_neg
  exact ⟨by simp, by simp [h0]⟩

/-- The rate field of `parseSegment`, through the stage projections. -/
theorem parseSegment_rate (tbl : ParserTables) (s : List Char) :
    (parseSegment tbl s).rate =
      (psRateStage (psQN tbl s) (psQuantity tbl s) (psTotalPrice tbl s)
        (psPriceStage (buildKeys tbl.RATE_KEYWORDS)
          (psQuantityStage (buildKeys tbl.QUANTITY_KEYWORDS) (psText s)).2.2).2).1 := by
  simp only [parseSegment, psQN, psQuantity, psTotalPrice]

/-- Every rate `psRateStage` can produce is either absent or a division of a
nonnegative extracted total by the quantity number. -/
theorem psRateStage_shape (qn : ℚ) (qty : Option (List Char)) (tp : Option ℚ)
    (text : List Char) (hq : 0 < qn) (hnn : ∀ p, tp = some p → 0 ≤ p) :
    (psRateStage qn qty tp text).1 = none ∨
      ∃ t, 0 ≤ t ∧ (psRateStage qn qty tp text).1 = some (qDiv t qn) := by
  unfold psRateStage
  cases tp with
  | none =>
    dsimp only
    rw [if_pos (Or.inl rfl)]
    cases findStandaloneNumber text with
    | none => exact Or.inl rfl
    | some numStr =>
      cases qty with
      | none => exact Or.inl rfl
      | some q => exact Or.inr ⟨parseDecimal numStr, parseDecimal_nonneg _, rfl⟩
  | some p =>
    have hp : 0 ≤ p := hnn p rfl
    dsimp only
    rw [if_pos hq]
    by_cases hz : qDiv p qn = 0
    · rw [if_pos (Or.inr (by rw [hz]))]
      cases findStandaloneNumber text with
      | none => exact Or.inr ⟨p, hp, rfl⟩
      | some numStr =>
        cases qty with
        | none => exact Or.inr ⟨p, hp, rfl⟩
        | some q => exact Or.inr ⟨parseDecimal numStr, parseDecimal_nonneg _, rfl⟩
    · rw [if_neg (by simp [hz])]
      exact Or.inr ⟨p, hp, rfl⟩


/-! ## Punctuation-only inputs (machinery for the name-absence claim)

A character is "pure punctuation" when it is not a word character, not
Tamil, not whitespace, and not a hyphen — exactly the characters
`parseSegment`'s name extraction erases and none of its numeric or keyword
patterns can consume. -/

def punctChar (c : Char) : Bool :=
  !isWordChar c && !isTamilChar c && !jsIsSpace c && !(c.toNat == 45)

def punctSpace (c : Char) : Bool :=
  punctChar c || jsIsSpace c

/-- Head-character shape shared by every key of the number-word maps:
a (lowercase) ASCII letter or a Tamil character. -/
def goodHeadB : List Char → Bool
  | [] => false
  | c :: _ => isAsciiAlpha c || isTamilChar c

theorem char_ofNat_toNat (n : Nat) (h : n < 55296) : (Char.ofNat n).toNat = n := by
  unfold Char.ofNat
  rw [dif_pos (Or.inl (by omega))]
  rfl

/-- Arithmetic form of `punctSpace` membership. -/
theorem psp_toNat (c : Char) (h : punctSpace c = true) :
    ¬ (97 ≤ c.toNat ∧ c.toNat ≤ 122) ∧ ¬ (65 ≤ c.toNat ∧ c.toNat ≤ 90) ∧
    ¬ (48 ≤ c.toNat ∧ c.toNat ≤ 57) ∧ c.toNat ≠ 95 ∧ c.toNat ≠ 45 ∧
    ¬ (0x0B80 ≤ c.toNat ∧ c.toNat ≤ 0x0BFF) := by
  simp only [punctSpace, punctChar, isWordChar, isAsciiAlpha, isDigitChar, isTamilChar,
    jsIsSpace, Bool.or_eq_true, Bool.and_eq_true, Bool.not_eq_true',
    Bool.or_eq_false_iff, Bool.and_eq_false_iff, decide_eq_true_eq,
    decide_eq_false_iff_not, beq_iff_eq, beq_eq_false_iff_ne, ne_eq] at h
  omega

theorem psp_word (c : Char) (h : punctSpace c = true) : isWordChar c = false := by
  have hn := psp_toNat c h
  simp only [isWordChar, isAsciiAlpha, isDigitChar, Bool.or_eq_false_iff,
    Bool.and_eq_false_iff, decide_eq_false_iff_not, beq_eq_false_iff_ne, ne_eq]
  omega

theorem psp_tamil (c : Char) (h : punctSpace c = true) : isTamilChar c = false := by
  have hn := psp_toNat c h
  simp only [isTamilChar, Bool.and_eq_false_iff, decide_eq_false_iff_not]
  omega

theorem psp_digit (c : Char) (h : punctSpace c = true) : isDigitChar c = false := by
  have hn := psp_toNat c h
  simp only [isDigitChar, Bool.and_eq_false_iff, decide_eq_false_iff_not]
  omega

theorem psp_toLower (c : Char) (h : punctSpace c = true) : toLowerChar c = c := by
  have hn := psp_toNat c h
  unfold toLowerChar
  rw [if_neg]
  simp only [Bool.and_eq_true, decide_eq_true_eq, not_and]
  omega

/-- The lowercase image of a letter-or-Tamil character is itself a
(lowercase) letter or Tamil character, by code point. -/
theorem good_toLower_range (k : Char) (hk : (isAsciiAlpha k || isTamilChar k) = true) :
    (97 ≤ (toLowerChar k).toNat ∧ (toLowerChar k).toNat ≤ 122) ∨
      (0x0B80 ≤ (toLowerChar k).toNat ∧ (toLowerChar k).toNat ≤ 0x0BFF) := by
  simp only [isAsciiAlpha, isTamilChar, Bool.or_eq_true, Bool.and_eq_true,
    decide_eq_true_eq] at hk
  unfold toLowerChar
  split_ifs with hcase
  · simp only [Bool.and_eq_true, decide_eq_true_eq] at hcase
    rw [char_ofNat_toNat _ (by omega)]
    omega
  · simp only [Bool.and_eq_true, decide_eq_true_eq, not_and] at hcase
    omega

theorem ciEq_punct_false (c k : Char) (hc : punctSpace c = true)
    (hk : (isAsciiAlpha k || isTamilChar k) = true) : ciEq c k = false := by
  unfold ciEq
  rw [psp_toLower c hc]
  have hrange := good_toLower_range k hk
  have hn := psp_toNat c hc
  rw [beq_eq_false_iff_ne]
  intro heq
  rw [heq] at hn
  omega

theorem ciBegins_punct_false (key : List Char) (hkey : goodHeadB key = true)
    (l : List Char) (hl : l.all punctSpace = true) : ciBegins key l = false := by
  cases key with
  | nil => simp [goodHeadB] at hkey
  | cons k ks =>
    cases l with
    | nil => rfl
    | cons c cs =>
      simp only [List.all_cons, Bool.and_eq_true] at hl
      unfold ciBegins
      rw [ciEq_punct_false c k hl.1 hkey]
      rfl

theorem all_drop (p : Char → Bool) (l : List Char) (h : l.all p = true) (n : Nat) :
    (l.drop n).all p = true := by
  rw [List.all_eq_true] at h ⊢
  exact fun c hc => h c (List.drop_subset n l hc)

theorem takeWhile_digit_nil (l : List Char) (hl : l.all punctSpace = true) :
    l.takeWhile isDigitChar = [] := by
  cases l with
  | nil => rfl
  | cons c r =>
    simp only [List.all_cons, Bool.and_eq_true] at hl
    simp [List.takeWhile_cons, psp_digit c hl.1]

theorem wbTry_none (key val : List Char) (hkey : goodHeadB key = true)
    (atStart : Bool) (l : List Char) (hl : l.all punctSpace = true) :
    wbTry key val atStart l = none := by
  unfold wbTry
  rw [ciBegins_punct_false key hkey l hl]
  simp only [Bool.and_false, Bool.false_eq_true, if_false]
  cases l with
  | nil => rfl
  | cons c r =>
    simp only [List.all_cons, Bool.and_eq_true] at hl
    dsimp only
    rw [ciBegins_punct_false key hkey r hl.2]
    simp

theorem wbGo_id (key val : List Char) (hkey : goodHeadB key = true) :
    ∀ (fuel : Nat) (atStart : Bool) (l : List Char), l.all punctSpace = true →
      wbGo key val fuel atStart l = l
  | 0, _, _, _ => rfl
  | _ + 1, _, [], _ => rfl
  | fuel + 1, atStart, c :: r, hl => by
    have hl2 := hl
    simp only [List.all_cons, Bool.and_eq_true] at hl2
    unfold wbGo
    rw [wbTry_none key val hkey atStart (c :: r) hl]
    exact congrArg (c :: ·) (wbGo_id key val hkey fuel false r hl2.2)

theorem wordBoundedReplace_id (key val : List Char) (hkey : goodHeadB key = true)
    (text : List Char) (ht : text.all punctSpace = true) :
    wordBoundedReplace key val text = text :=
  wbGo_id key val hkey (text.length + 1) true text ht

theorem foldWB_id :
    ∀ (m : List (String × String)),
      m.all (fun kv => goodHeadB kv.1.data) = true →
      ∀ text : List Char, text.all punctSpace = true →
        m.foldl (fun t kv => wordBoundedReplace kv.1.data kv.2.data t) text = text
  | [], _, _, _ => rfl
  | kv :: m, hm, text, ht => by
    simp only [List.all_cons, Bool.and_eq_true] at hm
    simp only [List.foldl_cons]
    rw [wordBoundedReplace_id kv.1.data kv.2.data hm.1 text ht]
    exact foldWB_id m hm.2 text ht

theorem rcTry_none (key val : List Char) (l : List Char)
    (hl : l.all punctSpace = true) : rcTry key val l = none := by
  unfold rcTry
  rw [takeWhile_digit_nil l hl]
  simp

theorem rcGo_id (key val : List Char) :
    ∀ (fuel : Nat) (l : List Char), l.all punctSpace = true →
      rcGo key val fuel l = l
  | 0, _, _ => rfl
  | _ + 1, [], _ => rfl
  | fuel + 1, c :: r, hl => by
    have hl2 := hl
    simp only [List.all_cons, Bool.and_eq_true] at hl2
    unfold rcGo
    rw [rcTry_none key val (c :: r) hl]
    exact congrArg (c :: ·) (rcGo_id key val fuel r hl2.2)

theorem rateCorrReplace_id (key val : List Char) (text : List Char)
    (ht : text.all punctSpace = true) : rateCorrReplace key val text = text :=
  rcGo_id key val (text.length + 1) text ht

theorem foldRC_id :
    ∀ (m : List (String × String)) (text : List Char),
      text.all punctSpace = true →
      m.foldl (fun t kv => rateCorrReplace kv.1.data kv.2.data t) text = text
  | [], _, _ => rfl
  | kv :: m, text, ht => by
    simp only [List.foldl_cons]
    rw [rateCorrReplace_id kv.1.data kv.2.data text ht]
    exact foldRC_id m text ht

theorem cmTry_none (l : List Char) (hl : l.all punctSpace = true) :
    cmTry l = none := by
  cases l with
  | nil => rfl
  | cons a t =>
    cases t with
    | nil => rfl
    | cons b rest =>
      simp only [List.all_cons, Bool.and_eq_true] at hl
      unfold cmTry
      dsimp only
      rw [psp_digit a hl.1]
      simp

theorem cmGo_id :
    ∀ (fuel : Nat) (l : List Char), l.all punctSpace = true → cmGo fuel l = l
  | 0, _, _ => rfl
  | _ + 1, [], _ => rfl
  | fuel + 1, c :: r, hl => by
    have hl2 := hl
    simp only [List.all_cons, Bool.and_eq_true] at hl2
    unfold cmGo
    rw [cmTry_none (c :: r) hl]
    exact congrArg (c :: ·) (cmGo_id fuel r hl2.2)

theorem compoundMerge_id (text : List Char) (ht : text.all punctSpace = true) :
    compoundMerge text = text :=
  cmGo_id (text.length + 1) text ht

theorem numKeyTry_none (keys : List (List Char)) (allowS : Bool) (l : List Char)
    (hl : l.all punctSpace = true) : numKeyTry keys allowS l = none := by
  unfold numKeyTry
  rw [takeWhile_digit_nil l hl]
  simp

theorem numKeyGo_none (keys : List (List Char)) (allowS : Bool) :
    ∀ (fuel : Nat) (l : List Char), l.all punctSpace = true →
      numKeyGo keys allowS fuel l = none
  | 0, _, _ => rfl
  | _ + 1, [], _ => rfl
  | fuel + 1, c :: r, hl => by
    have hl2 := hl
    simp only [List.all_cons, Bool.and_eq_true] at hl2
    unfold numKeyGo
    rw [numKeyTry_none keys allowS (c :: r) hl]
    exact numKeyGo_none keys allowS fuel r hl2.2

theorem findNumKey_none (keys : List (List Char)) (allowS : Bool)
    (text : List Char) (ht : text.all punctSpace = true) :
    findNumKey keys allowS text = none :=
  numKeyGo_none keys allowS (text.length + 1) text ht

theorem keyNumTryKeys_none :
    ∀ (keys : List (List Char)) (l : List Char), l.all punctSpace = true →
      keyNumTryKeys keys l = none
  | [], _, _ => rfl
  | k :: ks, l, hl => by
    unfold keyNumTryKeys
    by_cases hb : ciBegins k l = true
    · rw [if_pos hb]
      dsimp only
      rw [takeWhile_digit_nil _ (all_drop _ _ (all_drop _ _ hl _) _)]
      rw [if_pos rfl]
      exact keyNumTryKeys_none ks l hl
    · rw [if_neg hb]
      exact keyNumTryKeys_none ks l hl

theorem keyNumGo_none (keys : List (List Char)) :
    ∀ (fuel : Nat) (l : List Char), l.all punctSpace = true →
      keyNumGo keys fuel l = none
  | 0, _, _ => rfl
  | _ + 1, [], _ => rfl
  | fuel + 1, c :: r, hl => by
    have hl2 := hl
    simp only [List.all_cons, Bool.and_eq_true] at hl2
    unfold keyNumGo
    rw [keyNumTryKeys_none keys (c :: r) hl]
    exact keyNumGo_none keys fuel r hl2.2

theorem findKeyNum_none (keys : List (List Char)) (text : List Char)
    (ht : text.all punctSpace = true) : findKeyNum keys text = none :=
  keyNumGo_none keys (text.length + 1) text ht

theorem fractionTry_none (word : List Char) (hword : goodHeadB word = true)
    (units : List (List Char)) (l : List Char) (hl : l.all punctSpace = true) :
    fractionTry word units l = none := by
  unfold fractionTry
  rw [ciBegins_punct_false word hword l hl]
  simp

theorem fractionGo_none (word : List Char) (hword : goodHeadB word = true)
    (units : List (List Char)) :
    ∀ (fuel : Nat) (l : List Char), l.all punctSpace = true →
      fractionGo word units fuel l = none
  | 0, _, _ => rfl
  | _ + 1, [], _ => rfl
  | fuel + 1, c :: r, hl => by
    have hl2 := hl
    simp only [List.all_cons, Bool.and_eq_true] at hl2
    unfold fractionGo
    rw [fractionTry_none word hword units (c :: r) hl]
    exact fractionGo_none word hword units fuel r hl2.2

theorem findFraction_none (word : List Char) (hword : goodHeadB word = true)
    (units : List (List Char)) (text : List Char)
    (ht : text.all punctSpace = true) : findFraction word units text = none :=
  fractionGo_none word hword units (text.length + 1) text ht

theorem snTry_none (prev : Option Char) (l : List Char)
    (hl : l.all punctSpace = true) : snTry prev l = none := by
  cases l with
  | nil => rfl
  | cons c r =>
    simp only [List.all_cons, Bool.and_eq_true] at hl
    unfold snTry
    dsimp only
    rw [psp_digit c hl.1]
    simp

theorem snGo_none :
    ∀ (fuel : Nat) (prev : Option Char) (l : List Char),
      l.all punctSpace = true → snGo fuel prev l = none
  | 0, _, _, _ => rfl
  | _ + 1, _, [], _ => rfl
  | fuel + 1, prev, c :: r, hl => by
    have hl2 := hl
    simp only [List.all_cons, Bool.and_eq_true] at hl2
    unfold snGo
    rw [snTry_none prev (c :: r) hl]
    exact snGo_none fuel (some c) r hl2.2

theorem findStandaloneNumber_none (text : List Char)
    (ht : text.all punctSpace = true) : findStandaloneNumber text = none :=
  snGo_none (text.length + 1) none text ht

theorem collapseWsGo_all :
    ∀ (b : Bool) (l : List Char), l.all punctSpace = true →
      (collapseWsGo b l).all punctSpace = true
  | _, [], _ => rfl
  | b, c :: r, hl => by
    have hl2 := hl
    simp only [List.all_cons, Bool.and_eq_true] at hl2
    unfold collapseWsGo
    by_cases hsp : jsIsSpace c = true
    · rw [if_pos hsp, List.all_append, Bool.and_eq_true]
      refine ⟨?_, collapseWsGo_all true r hl2.2⟩
      cases b <;> decide
    · rw [if_neg hsp, List.all_cons, Bool.and_eq_true]
      exact ⟨hl2.1, collapseWsGo_all false r hl2.2⟩

theorem collapseWs_all (l : List Char) (h : l.all punctSpace = true) :
    (collapseWs l).all punctSpace = true :=
  collapseWsGo_all false l h

theorem all_dropWhile (p q : Char → Bool) :
    ∀ l : List Char, l.all p = true → (l.dropWhile q).all p = true
  | [], _ => rfl
  | c :: r, hl => by
    have hl2 := hl
    simp only [List.all_cons, Bool.and_eq_true] at hl2
    rw [List.dropWhile_cons]
    split_ifs with hq
    · exact all_dropWhile p q r hl2.2
    · exact hl

theorem all_reverse (p : Char → Bool) (l : List Char) (h : l.all p = true) :
    l.reverse.all p = true := by
  rw [List.all_eq_true] at h ⊢
  intro c hc
  exact h c (List.mem_reverse.mp hc)

theorem jsTrim_all (p : Char → Bool) (l : List Char) (h : l.all p = true) :
    (jsTrim l).all p = true := by
  unfold jsTrim
  exact all_reverse _ _ (all_dropWhile _ _ _ (all_reverse _ _ (all_dropWhile _ _ _ h)))

theorem filter_all (p q : Char → Bool) (l : List Char) (h : l.all p = true) :
    (l.filter q).all p = true := by
  rw [List.all_eq_true] at h ⊢
  exact fun c hc => h c (List.mem_of_mem_filter hc)

theorem lowerStr_id_psp :
    ∀ l : List Char, l.all punctSpace = true → lowerStr l = l
  | [], _ => rfl
  | c :: r, hl => by
    have hl2 := hl
    simp only [List.all_cons, Bool.and_eq_true] at hl2
    unfold lowerStr
    simp only [List.map_cons]
    rw [psp_toLower c hl2.1]
    exact congrArg (c :: ·) (lowerStr_id_psp r hl2.2)

/-- On punctuation/whitespace-only text, `normalizeNumbers` performs only
its whitespace cleanup: no number-word key (every key starts with a letter
or a Tamil character), no rate-correction (needs a digit) and no compound
merge (needs a digit) can match. -/
theorem normalizeNumbers_punct (text : List Char) (h : text.all punctSpace = true) :
    normalizeNumbers text = jsTrim (collapseWs text) := by
  unfold normalizeNumbers
  dsimp only
  rw [lowerStr_id_psp text h]
  rw [foldWB_id TAMIL_NUMBER_MAP (by decide) text h]
  rw [foldWB_id ENGLISH_NUMBER_MAP (by decide) text h]
  rw [foldRC_id RATE_CORRECTIONS text h]
  rw [compoundMerge_id text h]

theorem normalizeNumbers_all (text : List Char) (h : text.all punctSpace = true) :
    (normalizeNumbers text).all punctSpace = true := by
  rw [normalizeNumbers_punct text h]
  exact jsTrim_all _ _ (collapseWs_all _ h)

theorem psText_all (s : List Char) (h : s.all punctSpace = true) :
    (psText s).all punctSpace = true := by
  unfold psText
  refine jsTrim_all _ _ (collapseWs_all _ (filter_all _ _ _ ?_))
  refine normalizeNumbers_all _ (jsTrim_all _ _ ?_)
  rw [lowerStr_id_psp s h]
  exact h

theorem psQuantityStage_punct (qtyKeys : List (List Char)) (text : List Char)
    (h : text.all punctSpace = true) :
    psQuantityStage qtyKeys text = (1, none, text) := by
  unfold psQuantityStage
  rw [findNumKey_none qtyKeys true text h]
  rw [findKeyNum_none qtyKeys text h]
  rw [findFraction_none _ (by decide) quantityFractionUnits text h]
  rw [findFraction_none _ (by decide) quantityFractionUnits text h]
  rw [findFraction_none _ (by decide) quantityFractionUnits text h]

theorem psPriceStage_punct (rateKeys : List (List Char)) (text : List Char)
    (h : text.all punctSpace = true) :
    psPriceStage rateKeys text = (none, text) := by
  unfold psPriceStage
  rw [findNumKey_none rateKeys false text h]
  rw [findKeyNum_none rateKeys text h]

theorem psRateStage_punct (text : List Char) (h : text.all punctSpace = true) :
    psRateStage 1 none none text = (none, text) := by
  unfold psRateStage
  rw [if_pos (Or.inl rfl)]
  rw [findStandaloneNumber_none text h]

theorem stripNameChar_space (c : Char) (h : punctSpace c = true) :
    jsIsSpace (stripNameChar c) = true := by
  unfold stripNameChar
  by_cases hsp : jsIsSpace c = true
  · rw [if_pos (by rw [hsp]; simp)]
    exact hsp
  · have hn := psp_toNat c h
    have h45 : (c.toNat == 45) = false := by
      simp only [beq_eq_false_iff_ne, ne_eq]
      exact hn.2.2.2.2.1
    have hspf : jsIsSpace c = false := by
      revert hsp
      cases jsIsSpace c <;> simp
    rw [if_neg]
    · decide
    · rw [psp_word c h, psp_tamil c h, hspf, h45]
      simp

theorem strip_all_space :
    ∀ text : List Char, text.all punctSpace = true →
      (text.map stripNameChar).all jsIsSpace = true
  | [], _ => rfl
  | c :: r, hl => by
    have hl2 := hl
    simp only [List.all_cons, Bool.and_eq_true] at hl2
    simp only [List.map_cons, List.all_cons, Bool.and_eq_true]
    exact ⟨stripNameChar_space c hl2.1, strip_all_space r hl2.2⟩

theorem dropWhile_all_nil (p : Char → Bool) :
    ∀ l : List Char, l.all p = true → l.dropWhile p = []
  | [], _ => rfl
  | c :: r, hl => by
    have hl2 := hl
    simp only [List.all_cons, Bool.and_eq_true] at hl2
    rw [List.dropWhile_cons, if_pos hl2.1]
    exact dropWhile_all_nil p r hl2.2

theorem jsTrim_allspace_nil (l : List Char) (h : l.all jsIsSpace = true) :
    jsTrim l = [] := by
  unfold jsTrim
  rw [dropWhile_all_nil jsIsSpace l h]
  rfl

theorem psNameStage_punct (text : List Char) (h : text.all punctSpace = true) :
    psNameStage text = [] := by
  unfold psNameStage
  rw [jsTrim_allspace_nil _ (strip_all_space text h)]
  rfl

/-- On a punctuation/whitespace-only segment, `parseSegment` extracts no
name: no pattern consumes anything and the name residue is erased to
whitespace. -/
theorem parseSegment_punct_name (tbl : ParserTables) (s : List Char)
    (h : s.all punctSpace = true) : (parseSegment tbl s).name = none := by
  have ht := psText_all s h
  have hq := psQuantityStage_punct (buildKeys tbl.QUANTITY_KEYWORDS) (psText s) ht
  have hp := psPriceStage_punct (buildKeys tbl.RATE_KEYWORDS) (psText s) ht
  have hr := psRateStage_punct (psText s) ht
  simp only [parseSegment, hq, hp, hr, psNameStage_punct (psText s) ht]
  exact if_pos trivial

/-! ## Trim and split facts (machinery for the trailing-text claims) -/

theorem dropWhile_nil_all (p : Char → Bool) :
    ∀ l : List Char, l.dropWhile p = [] → l.all p = true
  | [], _ => rfl
  | c :: r, h => by
    rw [List.dropWhile_cons] at h
    by_cases hp : p c = true
    · rw [if_pos hp] at h
      rw [List.all_cons, Bool.and_eq_true]
      exact ⟨hp, dropWhile_nil_all p r h⟩
    · rw [if_neg hp] at h
      exact absurd h (List.cons_ne_nil c r)

theorem all_takeWhile (p : Char → Bool) :
    ∀ l : List Char, (l.takeWhile p).all p = true
  | [] => rfl
  | c :: r => by
    rw [List.takeWhile_cons]
    by_cases hp : p c = true
    · rw [if_pos hp, List.all_cons, Bool.and_eq_true]
      exact ⟨hp, all_takeWhile p r⟩
    · rw [if_neg hp]
      rfl

theorem all_of_jsTrim_nil (l : List Char) (h : jsTrim l = []) :
    l.all jsIsSpace = true := by
  unfold jsTrim at h
  rw [List.reverse_eq_nil_iff] at h
  have h2 := dropWhile_nil_all jsIsSpace _ h
  have h3 : (l.dropWhile jsIsSpace).all jsIsSpace = true := by
    rw [List.all_eq_true] at h2 ⊢
    exact fun c hc => h2 c (List.mem_reverse.mpr hc)
  rw [← @List.takeWhile_append_dropWhile _ jsIsSpace l, List.all_append,
    Bool.and_eq_true]
  exact ⟨all_takeWhile jsIsSpace l, h3⟩

theorem dropWhile_head_false (p : Char → Bool) :
    ∀ (l : List Char) (c : Char) (r : List Char),
      l.dropWhile p = c :: r → p c = false
  | [], c, r, h => by simp at h
  | x :: xs, c, r, h => by
    rw [List.dropWhile_cons] at h
    by_cases hp : p x = true
    · rw [if_pos hp] at h
      exact dropWhile_head_false p xs c r h
    · rw [if_neg hp] at h
      injection h with h1 _
      subst h1
      cases hpc : p x
      · rfl
      · exact absurd hpc hp

theorem dropWhile_all_imp_nil (p : Char → Bool) (X : List Char)
    (h : (X.dropWhile p).all p = true) : X.dropWhile p = [] := by
  cases hz : X.dropWhile p with
  | nil => rfl
  | cons c r =>
    have hc := dropWhile_head_false p X c r hz
    rw [hz, List.all_cons, Bool.and_eq_true] at h
    rw [hc] at h
    exact absurd h.1 (by simp)

theorem jsTrim_all_space_eq_nil (l : List Char)
    (h : (jsTrim l).all jsIsSpace = true) : jsTrim l = [] := by
  unfold jsTrim at h ⊢
  have h2 : ((l.dropWhile jsIsSpace).reverse.dropWhile jsIsSpace).all jsIsSpace
      = true := by
    rw [List.all_eq_true] at h ⊢
    exact fun c hc => h c (List.mem_reverse.mpr hc)
  rw [dropWhile_all_imp_nil jsIsSpace _ h2]
  rfl

/-- A string whose trim is non-blank stays non-blank after re-trimming. -/
theorem jsTrim_jsTrim_ne_nil (p : List Char) (h : jsTrim p ≠ []) :
    jsTrim (jsTrim p) ≠ [] := by
  intro hcontra
  exact h (jsTrim_all_space_eq_nil p (all_of_jsTrim_nil _ hcontra))

/-- Appending a non-blank trimmed part keeps the accumulator non-blank. -/
theorem jsTrim_append_part_ne_nil (cs p : List Char) (h : jsTrim p ≠ []) :
    jsTrim (cs ++ ' ' :: jsTrim p) ≠ [] := by
  intro hcontra
  have hall := all_of_jsTrim_nil _ hcontra
  rw [List.all_append, Bool.and_eq_true, List.all_cons, Bool.and_eq_true] at hall
  exact h (jsTrim_all_space_eq_nil p hall.2.2)

theorem concatAll_all (p : Char → Bool) :
    ∀ (ps : List (List Char)), (∀ x ∈ ps, x.all p = true) →
      (concatAll ps).all p = true
  | [], _ => rfl
  | x :: ps, h => by
    unfold concatAll
    rw [List.all_append, Bool.and_eq_true]
    exact ⟨h x (List.mem_cons_self _ _),
      concatAll_all p ps fun y hy => h y (List.mem_cons_of_mem _ hy)⟩

theorem splitByAltGo_concat (keys : List (List Char)) :
    ∀ (fuel : Nat) (acc l : List Char),
      concatAll (splitByAltGo keys fuel acc l) = acc ++ l
  | 0, acc, l => by simp [splitByAltGo, concatAll]
  | _ + 1, acc, [] => by simp [splitByAltGo, concatAll]
  | fuel + 1, acc, c :: r => by
    unfold splitByAltGo
    cases hf : keys.find? (fun k => ciBegins k (c :: r)) with
    | none =>
      rw [splitByAltGo_concat keys fuel (acc ++ [c]) r]
      simp
    | some k =>
      simp only [concatAll]
      rw [splitByAltGo_concat keys fuel [] ((c :: r).drop k.length)]
      rw [List.nil_append, List.take_append_drop]

theorem splitByAlt_concat (keys : List (List Char)) (text : List Char) :
    concatAll (splitByAlt keys text) = text :=
  splitByAltGo_concat keys (text.length + 1) [] text

/-- When the remaining text is non-blank, its item-name split has at least
one non-blank part. -/
theorem itemParts_ne_nil (items : List String) (rem : List Char)
    (h : jsTrim rem ≠ []) : itemParts items rem ≠ [] := by
  intro hcontra
  unfold itemParts at hcontra
  rw [List.filter_eq_nil_iff] at hcontra
  apply h
  apply jsTrim_allspace_nil
  rw [← splitByAlt_concat (items.map String.data) rem]
  apply concatAll_all
  intro x hx
  have h1 := hcontra x hx
  have h4 : (jsTrim x).isEmpty = true := by
    revert h1
    cases (jsTrim x).isEmpty <;> simp
  have h5 : jsTrim x = [] := by
    cases hxx : jsTrim x with
    | nil => rfl
    | cons c r =>
      rw [hxx] at h4
      cases h4
  exact all_of_jsTrim_nil x h5

/-- Loop invariant: with non-blank parts and a non-blank-or-empty start,
the final accumulated segment of the primary remaining-text loop is
non-blank. -/
theorem remainingLoop_final_ne_nil (tbl : ParserTables) :
    ∀ (parts : List (List Char)) (cs : List Char),
      (∀ p ∈ parts, jsTrim p ≠ []) →
      (parts ≠ [] ∨ jsTrim cs ≠ []) →
      jsTrim (remainingLoop tbl parts cs).2 ≠ []
  | [], cs, _, hne => by
    rcases hne with hne | hne
    · exact absurd rfl hne
    · exact hne
  | p :: ps, cs, hp, _ => by
    have hpart : jsTrim p ≠ [] := hp p (List.mem_cons_self _ _)
    have hps : ∀ q ∈ ps, jsTrim q ≠ [] := fun q hq => hp q (List.mem_cons_of_mem _ hq)
    unfold remainingLoop
    dsimp only
    by_cases hcond :
        (isItemName tbl.TAMIL_ITEM_NAMES (jsTrim p) && !(jsTrim cs).isEmpty) = true
    · rw [if_pos hcond]
      exact remainingLoop_final_ne_nil tbl ps (jsTrim p) hps
        (Or.inr (jsTrim_jsTrim_ne_nil p hpart))
    · rw [if_neg hcond]
      exact remainingLoop_final_ne_nil tbl ps (cs ++ ' ' :: jsTrim p) hps
        (Or.inr (jsTrim_append_part_ne_nil cs p hpart))

/-! ## Projections of `parseContinuousInputSt` -/

theorem isEmpty_false_of_ne_nil {α : Type} (l : List α) (h : l ≠ []) :
    l.isEmpty = false := by
  cases l with
  | nil => exact absurd rfl h
  | cons c r => rfl

/-- The module state after the unconditional in-place sort of
`RATE_KEYWORDS` (line 655). -/
def pcTbl1 (tbl : ParserTables) : ParserTables :=
  ⟨sortByLenDesc tbl.RATE_KEYWORDS, tbl.QUANTITY_KEYWORDS, tbl.TAMIL_ITEM_NAMES⟩

/-- The module state after both in-place sorts. -/
def pcSortedTables (tbl : ParserTables) : ParserTables :=
  ⟨sortByLenDesc tbl.RATE_KEYWORDS, tbl.QUANTITY_KEYWORDS,
    sortByLenDesc tbl.TAMIL_ITEM_NAMES⟩

/-- The price-boundary scan a `parseContinuousInput` call performs:
closed segments and remaining text. -/
def pcScan (tbl : ParserTables) (t : List Char) : List (List Char) × List Char :=
  rateScan ((sortByLenDesc tbl.RATE_KEYWORDS).map String.data)
    (normalizeNumbers (preprocessTranscript tbl t))

/-- The kept results of the closed (price-delimited) segments. -/
def closedOf (tbl : ParserTables) (t : List Char) : List ParsedVoiceData :=
  ((pcScan tbl t).1.map (parseSegment (pcTbl1 tbl))).filter keepResult

/-- The results pushed by the remaining-text loop before its final
segment. -/
def remPushed (tbl : ParserTables) (t : List Char) : List ParsedVoiceData :=
  (remainingLoop (pcSortedTables tbl)
    (itemParts (pcSortedTables tbl).TAMIL_ITEM_NAMES (pcScan tbl t).2) []).1

/-- The final accumulated sub-segment of the remaining text. -/
def remFinalSeg (tbl : ParserTables) (t : List Char) : List Char :=
  (remainingLoop (pcSortedTables tbl)
    (itemParts (pcSortedTables tbl).TAMIL_ITEM_NAMES (pcScan tbl t).2) []).2

theorem itemParts_mem_ne_nil (items : List String) (rem : List Char) :
    ∀ p ∈ itemParts items rem, jsTrim p ≠ [] := by
  intro p hp
  unfold itemParts at hp
  have h1 := List.of_mem_filter hp
  intro hcontra
  rw [hcontra] at h1
  cases h1

/-- Primary-path decomposition with non-blank remaining text: the result is
the kept closed-segment results, then the kept intermediate sub-segments of
the item-name-split tail, then — always, with no field requirement — the
parse of the final accumulated sub-segment. -/
theorem primary_trailing_decomposition (tbl : ParserTables) (t : List Char)
    (hseg : (pcScan tbl t).1 ≠ []) (hrem : jsTrim (pcScan tbl t).2 ≠ []) :
    (parseContinuousInputSt tbl t).1 =
      closedOf tbl t ++ remPushed tbl t ++
        [parseSegment (pcSortedTables tbl) (remFinalSeg tbl t)] := by
  have hfin : jsTrim (remainingLoop (pcSortedTables tbl)
      (itemParts (pcSortedTables tbl).TAMIL_ITEM_NAMES (pcScan tbl t).2) []).2 ≠ [] :=
    remainingLoop_final_ne_nil (pcSortedTables tbl) _ []
      (itemParts_mem_ne_nil _ _)
      (Or.inl (itemParts_ne_nil _ _ hrem))
  simp only [pcScan] at hseg hrem
  unfold parseContinuousInputSt handleRemaining
  dsimp only
  rw [isEmpty_false_of_ne_nil _ hseg]
  rw [if_neg Bool.false_ne_true]
  rw [isEmpty_false_of_ne_nil _ hrem]
  rw [if_neg Bool.false_ne_true]
  simp only [pcSortedTables, pcScan, remPushed, remFinalSeg, closedOf, pcTbl1] at hfin ⊢
  rw [isEmpty_false_of_ne_nil _ hfin]
  rw [if_neg Bool.false_ne_true]
  rw [List.append_assoc]

/-- Primary-path decomposition in general: price-delimited closed segments,
then the item-name-splitting handler on the remaining text (empty when the
remaining text is blank). -/
theorem primary_decomposition (tbl : ParserTables) (t : List Char)
    (hseg : (pcScan tbl t).1 ≠ []) :
    (parseContinuousInputSt tbl t).1 =
      closedOf tbl t ++
        (if (jsTrim (pcScan tbl t).2).isEmpty then []
         else handleRemaining (pcSortedTables tbl) (pcScan tbl t).2) := by
  simp only [pcScan] at hseg ⊢
  unfold parseContinuousInputSt
  dsimp only
  rw [isEmpty_false_of_ne_nil _ hseg]
  rw [if_neg Bool.false_ne_true]
  by_cases hrem : (jsTrim (rateScan ((sortByLenDesc tbl.RATE_KEYWORDS).map String.data)
      (normalizeNumbers (preprocessTranscript tbl t))).2).isEmpty = true
  · rw [if_pos hrem, if_pos hrem]
    simp only [closedOf, pcTbl1, pcScan, List.append_nil]
  · rw [if_neg hrem, if_neg hrem]
    simp only [closedOf, pcTbl1, pcScan, pcSortedTables]

/-! ## Lexicon-matcher threshold behaviour -/

/-- The best similarity score the `findClosestLexiconMatch` scan computes
for a word (the `bestScore` it reports). -/
def bestLexiconSimilarity (word : List Char) : ℚ :=
  (TAMIL_GROCERY_LEXICON.foldl
    (fun acc lexiconWord =>
      let s := calculateSimilarity word lexiconWord.data
      if acc.2 < s then (lexiconWord.data, s) else acc)
    (word, 0)).2

theorem simFold_lt (word : List Char) (t : ℚ) (l : List String) :
    ∀ acc : List Char × ℚ, acc.2 < t →
    (∀ e ∈ l, calculateSimilarity word e.data < t) →
    (l.foldl
      (fun acc lexiconWord =>
        let s := calculateSimilarity word lexiconWord.data
        if acc.2 < s then (lexiconWord.data, s) else acc) acc).2 < t := by
  induction l with
  | nil =>
    intro acc hacc _
    exact hacc
  | cons e es ih =>
    intro acc hacc hall
    rw [List.foldl_cons]
    apply ih
    · dsimp only
      split
      · exact hall e (List.mem_cons_self e es)
      · exact hacc
    · intro x hx
      exact hall x (List.mem_cons_of_mem e hx)

/-! ## Specification model of the segmentation policy

The following definition follows the specification's words, not the code:
it is the comparison point for the strategy-mixing claim. -/

/-- Modelled from the spec: when at least one price boundary is found, only
the primary strategy is used — the closed segments are parsed and filtered,
and the whole trailing text is parsed as one live segment and appended; the
item-name (secondary) split is applied only when no boundary exists. -/
def parseContinuousInputSpecModel (tbl : ParserTables) (t : List Char) :
    List ParsedVoiceData :=
  let sorted := pcSortedTables tbl
  let scan := pcScan tbl t
  if scan.1.isEmpty then
    let res := secondaryLoop sorted
      (itemParts sorted.TAMIL_ITEM_NAMES
        (normalizeNumbers (preprocessTranscript tbl t))) []
    res.1 ++ (if (jsTrim res.2).isEmpty then [] else [parseSegment sorted res.2])
  else
    ((scan.1.map (parseSegment sorted)).filter keepResult) ++
      (if (jsTrim scan.2).isEmpty then [] else [parseSegment sorted scan.2])

/-! ## Claim theorems -/

/-- C1 (amended): whenever `parseSegment` extracts a spoken total price `p`
and the division `p / quantityNumber` is not JS-falsy (not `0`), the
returned rate is exactly `p / quantityNumber`, the quantity number
defaulting to `1` (and always positive).  The original claim's final clause
fails: the rate can coincide with the raw spoken total (see the
counterexample, where a spoken total of `0` with quantity `2` is returned
as rate `0`). -/
theorem claim_C1 (tbl : ParserTables) (s : List Char) (p : ℚ)
    (hp : psTotalPrice tbl s = some p)
    (hnz : qDiv p (psQN tbl s) ≠ 0) :
    (parseSegment tbl s).rate = some (qDiv p (psQN tbl s)) := by
  have hq : 0 < psQN tbl s := psQuantityStage_pos _ _
  rw [parseSegment_rate, hp]
  unfold psRateStage
  dsimp only
  rw [if_pos hq]
  rw [if_neg]
  push_neg
  exact ⟨by simp, by simp [hnz]⟩

/-- C5 (amended): on a segment made only of punctuation and whitespace —
no letters, no Tamil characters, no digits, no underscore, no hyphen —
`parseSegment` returns an absent name.  The original claim also admitted
digit characters, and fails on them: see the counterexample, where the
all-digit segment `"5"` yields the name `"5"`. -/
theorem claim_C5 (tbl : ParserTables) (s : List Char)
    (h : s.all punctSpace = true) : (parseSegment tbl s).name = none :=
  parseSegment_punct_name tbl s h

/-- C6: when every lexicon entry scores strictly below the threshold
`0.75`, `findClosestLexiconMatch` returns the word unchanged with the best
score still reported; and in general a changed word is returned only when
the best score reaches the threshold. -/
theorem claim_C6 :
    (∀ word : List Char,
      (∀ e ∈ TAMIL_GROCERY_LEXICON,
        calculateSimilarity word e.data < Rat.divInt 3 4) →
      findClosestLexiconMatch word (Rat.divInt 3 4) =
        (word, bestLexiconSimilarity word)) ∧
    (∀ (word : List Char) (t : ℚ),
      (findClosestLexiconMatch word t).1 ≠ word →
      t ≤ (findClosestLexiconMatch word t).2) := by
  constructor
  · intro word hall
    unfold findClosestLexiconMatch bestLexiconSimilarity
    dsimp only
    have hb := simFold_lt word (Rat.divInt 3 4) TAMIL_GROCERY_LEXICON (word, 0)
      (by exact (by decide : (0 : ℚ) < Rat.divInt 3 4)) hall
    rw [if_neg (not_le.mpr hb)]
  · intro word t h
    unfold findClosestLexiconMatch at h ⊢
    dsimp only at h ⊢
    by_cases hb : t ≤ (TAMIL_GROCERY_LEXICON.foldl
      (fun acc lexiconWord =>
        let s := calculateSimilarity word lexiconWord.data
        if acc.2 < s then (lexiconWord.data, s) else acc) (word, 0)).2
    · rw [if_pos hb]
      exact hb
    · rw [if_neg hb] at h
      exact absurd rfl h

/-- C7 (amended): `formalizeTamilForPDF` is idempotent at its genuine fixed
points — if formalizing a string returns it unchanged, a second application
changes nothing.  The original claim — that every output is such a fixed
point, i.e. `formalize (formalize x) = formalize x` for all `x` — fails:
see the counterexample, where the diglossia rewrite applies again inside
its own output. -/
theorem claim_C7 (x : List Char) (h : formalizeTamilForPDF x = x) :
    formalizeTamilForPDF (formalizeTamilForPDF x) = formalizeTamilForPDF x := by
  rw [h]
  exact h

/-- C10: the quantity magnitude `parseSegment` divides by is always
strictly positive (it is `1` by default, a parsed quantity of `0` is
coerced back to `1`, and the Tamil fractions are `1/2`, `1/4`, `3/4`), so
the rate division never divides by zero; and every present rate is a
quotient of a nonnegative extracted total by that positive quantity
number. -/
theorem claim_C10 :
    (∀ (tbl : ParserTables) (s : List Char), 0 < psQN tbl s) ∧
    (∀ (tbl : ParserTables) (s : List Char),
      (parseSegment tbl s).rate = none ∨
      ∃ t, 0 ≤ t ∧ (parseSegment tbl s).rate = some (qDiv t (psQN tbl s))) := by
  constructor
  · intro tbl s
    exact psQuantityStage_pos _ _
  · intro tbl s
    rw [parseSegment_rate]
    exact psRateStage_shape _ _ _ _ (psQuantityStage_pos _ _)
      (fun p hp => psPriceStage_nonneg _ _ p hp)

theorem claim_C1_counterexample :
    psQN initialTables (("tomato 2 kg 0 rupees").data) = 2 ∧
    psTotalPrice initialTables (("tomato 2 kg 0 rupees").data) = some 0 ∧
    (parseSegment initialTables (("tomato 2 kg 0 rupees").data)).rate = some 0 := by
  decide

theorem claim_C1_witness :
    psTotalPrice initialTables (("tomato 2 kg 50 rupees").data) = some 50 ∧
    qDiv 50 (psQN initialTables (("tomato 2 kg 50 rupees").data)) ≠ 0 ∧
    (parseSegment initialTables (("tomato 2 kg 50 rupees").data)).rate =
      some (qDiv 50 (psQN initialTables (("tomato 2 kg 50 rupees").data))) :=
  ⟨by decide, by decide, claim_C1 initialTables _ 50 (by decide) (by decide)⟩

set_option maxHeartbeats 8000000 in
/-- C2: on the transcript "tomato 2 kg 50 rupees potato 1 kg 20 rupees" the
parser returns exactly two items in transcript order, Tomato at rate 25 and
Potato at rate 20. -/
theorem claim_C2 :
    parseContinuousInput ("tomato 2 kg 50 rupees potato 1 kg 20 rupees") =
      [⟨some ("Tomato"), some ("2 kg"), some 25⟩,
       ⟨some ("Potato"), some ("1 kg"), some 20⟩] := by
  decide

set_option maxHeartbeats 8000000 in
/-- C3 (amended): on the primary path the parse of the final accumulated
trailing sub-segment is appended as the last element unconditionally, with
no completeness requirement, and on "tomato 2 kg" the parser returns
exactly the single live item (Tomato, 2 kg, no rate).  The original claim's
secondary-path half fails: there the final accumulating segment is appended
only when its parse has a name or a quantity (see the counterexample, where
a non-blank final segment is dropped). -/
theorem claim_C3 :
    (∀ (tbl : ParserTables) (t : List Char),
      (pcScan tbl t).1 ≠ [] → jsTrim (pcScan tbl t).2 ≠ [] →
      (parseContinuousInputSt tbl t).1 =
        closedOf tbl t ++ remPushed tbl t ++
          [parseSegment (pcSortedTables tbl) (remFinalSeg tbl t)]) ∧
    parseContinuousInput ("tomato 2 kg") =
      [⟨some ("Tomato"), some ("2 kg"), none⟩] := by
  constructor
  · exact primary_trailing_decomposition
  · decide

theorem claim_C3_counterexample :
    (pcScan initialTables (("₹").data)).1 = [] ∧
    jsTrim (secondaryLoop (pcSortedTables initialTables)
      (itemParts (pcSortedTables initialTables).TAMIL_ITEM_NAMES
        (normalizeNumbers (preprocessTranscript initialTables (("₹").data))))
      []).2 ≠ [] ∧
    parseContinuousInput ("₹") = [] := by
  decide

set_option maxHeartbeats 4000000 in
theorem claim_C3_witness :
    (parseContinuousInputSt initialTables (("ab 1 kg 10 rs xy").data)).1 =
      closedOf initialTables (("ab 1 kg 10 rs xy").data) ++
        remPushed initialTables (("ab 1 kg 10 rs xy").data) ++
        [parseSegment (pcSortedTables initialTables)
          (remFinalSeg initialTables (("ab 1 kg 10 rs xy").data))] :=
  claim_C3.1 initialTables _ (by decide) (by decide)

/-- C4 (amended): when at least one price boundary is found the result is
the closed-segment results followed by `handleRemaining` — the item-name
(secondary-style) splitter — applied to the trailing text whenever that
text is non-blank.  The original outright-primacy claim fails: the two
strategies are mixed in one call (see the counterexample against the
spec-modelled definition). -/
theorem claim_C4 (tbl : ParserTables) (t : List Char)
    (hseg : (pcScan tbl t).1 ≠ []) :
    (parseContinuousInputSt tbl t).1 =
      closedOf tbl t ++
        (if (jsTrim (pcScan tbl t).2).isEmpty then []
         else handleRemaining (pcSortedTables tbl) (pcScan tbl t).2) :=
  primary_decomposition tbl t hseg

set_option maxHeartbeats 8000000 in
theorem claim_C4_counterexample :
    (pcScan initialTables (("ab 1 kg 10 rs xy tea").data)).1 ≠ [] ∧
    parseContinuousInput ("ab 1 kg 10 rs xy tea") ≠
      parseContinuousInputSpecModel initialTables
        (("ab 1 kg 10 rs xy tea").data) := by
  decide

set_option maxHeartbeats 4000000 in
theorem claim_C4_witness :
    (pcScan initialTables (("ab 1 kg 10 rs").data)).1 ≠ [] ∧
    (parseContinuousInputSt initialTables (("ab 1 kg 10 rs").data)).1 =
      closedOf initialTables (("ab 1 kg 10 rs").data) ++
        (if (jsTrim (pcScan initialTables (("ab 1 kg 10 rs").data)).2).isEmpty
         then []
         else handleRemaining (pcSortedTables initialTables)
           (pcScan initialTables (("ab 1 kg 10 rs").data)).2) :=
  ⟨by decide, claim_C4 initialTables _ (by decide)⟩

theorem claim_C5_counterexample :
    (("5").data).all (fun c => isDigitChar c || punctChar c) = true ∧
    (parseSegment initialTables (("5").data)).name = some ("5") := by
  decide

theorem claim_C5_witness :
    (parseSegment initialTables ((".,!?").data)).name = none :=
  claim_C5 initialTables _ (by decide)

set_option maxHeartbeats 4000000 in
theorem claim_C6_witness :
    findClosestLexiconMatch (("q").data) (Rat.divInt 3 4) =
      ((("q").data), bestLexiconSimilarity (("q").data)) :=
  claim_C6.1 _ (by decide)

set_option maxHeartbeats 4000000 in
theorem claim_C7_counterexample :
    formalizeTamilForPDF (formalizeTamilForPDF (("கோழி").data)) ≠
      formalizeTamilForPDF (("கோழி").data) := by
  decide

set_option maxHeartbeats 4000000 in
theorem claim_C7_witness :
    formalizeTamilForPDF (formalizeTamilForPDF (("தக்காளி").data)) =
      formalizeTamilForPDF (("தக்காளி").data) :=
  claim_C7 _ (by decide)

set_option maxHeartbeats 4000000 in
/-- C8 (refuted — code bug): a single parse call mutates a module-level
table in place: after parsing "5 rs" the `RATE_KEYWORDS` array no longer
holds its start-up order — it has been permanently reordered by length
descending by the in-place `sort` of line 655. -/
theorem claim_C8 :
    (parseContinuousInputSt initialTables (("5 rs").data)).2.RATE_KEYWORDS ≠
      initialTables.RATE_KEYWORDS ∧
    (parseContinuousInputSt initialTables (("5 rs").data)).2.RATE_KEYWORDS =
      sortByLenDesc initialTables.RATE_KEYWORDS := by
  decide

set_option maxHeartbeats 16000000 in
/-- C9 (refuted — code bug): the output is not a function of the transcript
alone.  On a fresh module, "onione 2 kg 10 rupees" parses to the item name
"Onion"; after one unrelated prior call ("zz"), whose secondary path has
sorted `TAMIL_ITEM_NAMES` in place, the same transcript parses to "Onions"
(the sorted order changes which tied semantic-verification candidate is
kept first). -/
theorem claim_C9 :
    (parseContinuousInputSt initialTables
        (("onione 2 kg 10 rupees").data)).1 =
      [⟨some ("Onion"), some ("2 kg"), some 5⟩] ∧
    (parseContinuousInputSt
        (parseContinuousInputSt initialTables (("zz").data)).2
        (("onione 2 kg 10 rupees").data)).1 =
      [⟨some ("Onions"), some ("2 kg"), some 5⟩] ∧
    (parseContinuousInputSt initialTables
        (("onione 2 kg 10 rupees").data)).1 ≠
      (parseContinuousInputSt
        (parseContinuousInputSt initialTables (("zz").data)).2
        (("onione 2 kg 10 rupees").data)).1 := by
  have h1 : (parseContinuousInputSt initialTables
      (("onione 2 kg 10 rupees").data)).1 =
      [⟨some ("Onion"), some ("2 kg"), some 5⟩] := by decide
  have h2 : (parseContinuousInputSt
      (parseContinuousInputSt initialTables (("zz").data)).2
      (("onione 2 kg 10 rupees").data)).1 =
      [⟨some ("Onions"), some ("2 kg"), some 5⟩] := by decide
  refine ⟨h1, h2, ?_⟩
  rw [h1, h2]
  decide
